import Mathlib

/-!
# Verification of the term-wrapper PTY session engine core

Shallow embedding of the core modules of the `term_wrapper` repository:

* `screen_buffer.py` — the `ScreenBuffer` ANSI/VT escape-sequence state
  machine (grid, cursor, CSI handling);
* `session_manager.py` — `TerminalSession` (raw output buffer) and
  `SessionManager` (id → session registry);
* `terminal.py` — the observable, pure fragment of `Terminal`
  (running flag, master fd, write guard, kill).

Python strings are embedded as `List Char`, byte strings as `List Nat`.
Code that can raise is embedded with `Option`/`Except`: a `none` /
`.error` result models an uncaught Python exception.
-/

set_option autoImplicit false
set_option maxHeartbeats 1000000

namespace TermWrapper

/-! ## Generic list helpers (embedding of Python list mutation) -/

/-- In-place update `l[n] = f l[n]`; out-of-range indices are left alone
(the embedded code always guards indices, so the out-of-range case is
never exercised under the grid-shape invariant). -/
def modifyAt {α : Type} : List α → Nat → (α → α) → List α
  | [], _, _ => []
  | a :: l, 0, f => f a :: l
  | a :: l, n + 1, f => a :: modifyAt l n f

/-- Embedding of `for i in range(a, a+n): row[i] = ' '` — set `n` cells to spaces
starting at index `a`. -/
def setSpaces : List Char → Nat → Nat → List Char
  | row, _, 0 => row
  | row, a, n + 1 => setSpaces (row.set a ' ') (a + 1) n

/-- Python `str.split(';')` on a list of characters: `"".split(';') = [""]`,
`"a;;b".split(';') = ["a","","b"]`. -/
def splitSemi : List Char → List (List Char)
  | [] => [[]]
  | c :: rest =>
    let r := splitSemi rest
    if c = ';' then [] :: r
    else
      match r with
      | [] => [[c]]
      | h :: t => (c :: h) :: t

/-- Python `int(s)` on the character set reachable inside a CSI body
(digits, `';'`, `'?'`): it succeeds exactly when `s` is a nonempty run of
decimal digits, and raises `ValueError` (here: `none`) otherwise. -/
def pyInt : List Char → Option Int
  | [] => none
  | s =>
    if s.all Char.isDigit then
      some (s.foldl (fun acc c => acc * 10 + (c.toNat - '0'.toNat)) 0)
    else none

/-- A character Python's `str.rstrip()` removes: ASCII whitespace. -/
def pyIsSpace (c : Char) : Bool :=
  c = ' ' || c = '\t' || c = '\n' || c = '\r' || c = '\x0b' || c = '\x0c'

/-- Python `str.rstrip()`: drop trailing whitespace. -/
def pyRstrip (s : List Char) : List Char :=
  (s.reverse.dropWhile pyIsSpace).reverse

/-! ## `ScreenBuffer` (screen_buffer.py) -/

/-- State of `ScreenBuffer`: fixed dimensions, cursor, character grid and
the optional saved-cursor slot (`hasattr(self, 'saved_cursor')` is
embedded as `Option`). -/
structure ScreenBuffer where
  rows : Nat
  cols : Nat
  cursor_row : Nat
  cursor_col : Nat
  screen : List (List Char)
  saved_cursor : Option (Nat × Nat)
  deriving Repr, DecidableEq

/-- A blank row of `cols` spaces. -/
def blankRow (cols : Nat) : List Char := List.replicate cols ' '

/-- Embedding of `ScreenBuffer.__init__(rows, cols)`. -/
def ScreenBuffer.init (rows cols : Nat) : ScreenBuffer :=
  { rows := rows, cols := cols, cursor_row := 0, cursor_col := 0
    screen := List.replicate rows (blankRow cols), saved_cursor := none }

/-- Embedding of `ScreenBuffer.clear`: blank the whole grid, cursor to origin. -/
def ScreenBuffer.clear (sb : ScreenBuffer) : ScreenBuffer :=
  { sb with screen := List.replicate sb.rows (blankRow sb.cols)
            cursor_row := 0, cursor_col := 0 }

/-- Embedding of `ScreenBuffer.clear_line()` (default argument: the cursor row): clear
from the cursor column to the end of the row. -/
def ScreenBuffer.clear_line (sb : ScreenBuffer) : ScreenBuffer :=
  if sb.cursor_row < sb.rows then
    let scr := modifyAt sb.screen sb.cursor_row
      (fun row => setSpaces row sb.cursor_col (sb.cols - sb.cursor_col))
    { sb with screen := scr }
  else sb

/-- Embedding of `ScreenBuffer.clear_line_from_start()`: clear from the start of the row
up to and including the cursor column (capped at `cols`). -/
def ScreenBuffer.clear_line_from_start (sb : ScreenBuffer) : ScreenBuffer :=
  if sb.cursor_row < sb.rows then
    let scr := modifyAt sb.screen sb.cursor_row
      (fun row => setSpaces row 0 (min (sb.cursor_col + 1) sb.cols))
    { sb with screen := scr }
  else sb

/-- Embedding of `ScreenBuffer.clear_entire_line()`: replace the cursor row by a blank
row. -/
def ScreenBuffer.clear_entire_line (sb : ScreenBuffer) : ScreenBuffer :=
  if sb.cursor_row < sb.rows then
    { sb with screen := modifyAt sb.screen sb.cursor_row (fun _ => blankRow sb.cols) }
  else sb

/-- Body of the `J` / `0J` branch of `process_ansi_escape`: clear from the
cursor to the end of the current line, then blank every line below
(`for row in range(self.cursor_row + 1, self.rows)`). -/
def ScreenBuffer.clearToEnd (sb : ScreenBuffer) : ScreenBuffer :=
  let sb1 := sb.clear_line
  let scr :=
    (List.range' (sb1.cursor_row + 1) (sb1.rows - (sb1.cursor_row + 1))).foldl
      (fun scr r => modifyAt scr r (fun _ => blankRow sb1.cols))
      sb1.screen
  { sb1 with screen := scr }

/-- Embedding of `ScreenBuffer.write_char(char)`, first paragraph: control characters
move the cursor, anything else is written at the cursor (when in bounds)
and the cursor advances one column. -/
def ScreenBuffer.writeCharCore (sb : ScreenBuffer) (c : Char) : ScreenBuffer :=
  if c = '\n' then
    { sb with cursor_row := sb.cursor_row + 1, cursor_col := 0 }
  else if c = '\r' then
    { sb with cursor_col := 0 }
  else if c = '\t' then
    { sb with cursor_col := (sb.cursor_col / 8 + 1) * 8 }
  else if c = '\x08' then
    if sb.cursor_col > 0 then { sb with cursor_col := sb.cursor_col - 1 } else sb
  else
    { sb with
      screen :=
        if sb.cursor_row < sb.rows ∧ sb.cursor_col < sb.cols then
          modifyAt sb.screen sb.cursor_row (fun row => row.set sb.cursor_col c)
        else sb.screen
      cursor_col := sb.cursor_col + 1 }

/-- Embedding of `# Handle cursor overflow`: wrap the column to the next row. -/
def ScreenBuffer.wrapOverflow (sb : ScreenBuffer) : ScreenBuffer :=
  if sb.cursor_col ≥ sb.cols then
    { sb with cursor_col := 0, cursor_row := sb.cursor_row + 1 }
  else sb

/-- Embedding of `# Clamp cursor to screen bounds (don't scroll beyond)`. -/
def ScreenBuffer.clampRow (sb : ScreenBuffer) : ScreenBuffer :=
  if sb.cursor_row ≥ sb.rows then { sb with cursor_row := sb.rows - 1 } else sb

/-- Embedding of `ScreenBuffer.write_char(char)`: write/move, then wrap the column
overflow, then clamp the row. -/
def ScreenBuffer.write_char (sb : ScreenBuffer) (c : Char) : ScreenBuffer :=
  ((sb.writeCharCore c).wrapOverflow).clampRow

/-- Embedding of `ScreenBuffer.move_cursor(row, col)`: absolute move, clamped into
`[0, rows-1] × [0, cols-1]`. Arguments are `Int` because the Python call
sites pass possibly-negative values. -/
def ScreenBuffer.move_cursor (sb : ScreenBuffer) (row col : Int) : ScreenBuffer :=
  { sb with
    cursor_row := (max 0 (min row ((sb.rows : Int) - 1))).toNat
    cursor_col := (max 0 (min col ((sb.cols : Int) - 1))).toNat }

/-- Embedding of `ScreenBuffer.move_cursor_relative(row_delta, col_delta)`. -/
def ScreenBuffer.move_cursor_relative (sb : ScreenBuffer) (dr dc : Int) : ScreenBuffer :=
  sb.move_cursor ((sb.cursor_row : Int) + dr) ((sb.cursor_col : Int) + dc)

/-- Parameter of an `H`/`f` CSI sequence: `int(parts[k]) - 1 if parts[k]
else 0`, propagating the `ValueError` of `int`. -/
def csiParam (parts : List (List Char)) (k : Nat) : Option Int :=
  match parts.get? k with
  | none => some 0
  | some p => if p = [] then some 0 else (pyInt p).map (fun n => n - 1)

/-- Count of an `A`/`B`/`C`/`D` CSI sequence: `int(body) if body else 1`,
propagating the `ValueError` of `int`. -/
def csiCount (body : List Char) : Option Int :=
  if body = [] then some 1 else pyInt body

/-- The CSI block of `ScreenBuffer.process_ansi_escape`: everything under
`if sequence.startswith('['):`, applied to `csi_body = sequence[1:]`.
`none` models an uncaught `ValueError` from `int()`. -/
def ScreenBuffer.processCsi (sb : ScreenBuffer) (csi_body : List Char) :
    Option (ScreenBuffer × Bool) :=
    if csi_body.getLast? = some 'H' ∨ csi_body.getLast? = some 'f' then
      -- `parts = csi_body[:-1].split(';')`; `int(parts[k])` may raise
      match csiParam (splitSemi csi_body.dropLast) 0,
            csiParam (splitSemi csi_body.dropLast) 1 with
      | some row, some col => some (sb.move_cursor row col, true)
      | _, _ => none
    else if csi_body.getLast? = some 'A' then
      (csiCount csi_body.dropLast).map (fun n => (sb.move_cursor_relative (-n) 0, true))
    else if csi_body.getLast? = some 'B' then
      (csiCount csi_body.dropLast).map (fun n => (sb.move_cursor_relative n 0, true))
    else if csi_body.getLast? = some 'C' then
      (csiCount csi_body.dropLast).map (fun n => (sb.move_cursor_relative 0 n, true))
    else if csi_body.getLast? = some 'D' then
      (csiCount csi_body.dropLast).map (fun n => (sb.move_cursor_relative 0 (-n), true))
    else if csi_body = ['2', 'J'] then
      some (sb.clear, true)
    else if csi_body = ['J'] ∨ csi_body = ['0', 'J'] then
      some (sb.clearToEnd, true)
    else if csi_body = ['K'] ∨ csi_body = ['0', 'K'] then
      some (sb.clear_line, true)
    else if csi_body = ['1', 'K'] then
      some (sb.clear_line_from_start, true)
    else if csi_body = ['2', 'K'] then
      some (sb.clear_entire_line, true)
    else if csi_body = ['s'] then
      some ({ sb with saved_cursor := some (sb.cursor_row, sb.cursor_col) }, true)
    else if csi_body = ['u'] then
      match sb.saved_cursor with
      | some (r, c) => some ({ sb with cursor_row := r, cursor_col := c }, true)
      | none => some (sb, true)
    else if csi_body.getLast? = some 'm' then
      some (sb, true)
    else
      some (sb, false)

/-- Embedding of `ScreenBuffer.process_ansi_escape(sequence)`: dispatch one escape
sequence (without the ESC byte). Returns the updated buffer and the
handled flag; non-CSI sequences are unhandled. -/
def ScreenBuffer.process_ansi_escape (sb : ScreenBuffer) (seq : List Char) :
    Option (ScreenBuffer × Bool) :=
  match seq with
  | c0 :: csi_body => if c0 = '[' then sb.processCsi csi_body else some (sb, false)
  | [] => some (sb, false)

/-- Characters the `process_output` scanner accepts inside a CSI body:
`'0123456789;?'`. -/
def isCsiParamChar (c : Char) : Bool :=
  c.isDigit || c = ';' || c = '?'

/-- Final characters of a DEC private-mode sequence (`'hlH'`). -/
def isDecFinal (c : Char) : Bool :=
  c = 'h' || c = 'l' || c = 'H'

/-- Embedding of `ScreenBuffer.process_output(output)`: scan the stream, dispatch
escape sequences, write everything else through `write_char`. `none`
models an uncaught exception from `process_ansi_escape`. -/
def ScreenBuffer.process_output (sb : ScreenBuffer) : List Char → Option ScreenBuffer
  | [] => some sb
  | '\x1b' :: c :: rest =>
    if c = '[' then
      -- CSI: scan params, then a final byte; a truncated sequence falls
      -- through to the generic `i += 2` skip (ESC and '[' only).
      let params := rest.takeWhile isCsiParamChar
      match h : rest.dropWhile isCsiParamChar with
      | final :: rest' =>
        match (sb.process_ansi_escape ('[' :: (params ++ [final]))) with
        | some (sb', _) => sb'.process_output rest'
        | none => none
      | [] => sb.process_output rest
    else if c = '(' then
      sb.process_output (rest.drop 1)
    else if c = '=' ∨ c = '>' ∨ c = '<' then
      sb.process_output rest
    else if c = '?' then
      match h : rest.dropWhile (fun ch => !isDecFinal ch) with
      | [] => sb.process_output ([] : List Char)
      | _ :: rest' => sb.process_output rest'
    else
      sb.process_output rest
  | c :: rest => (sb.write_char c).process_output rest
termination_by cs => cs.length
decreasing_by
  all_goals simp only [List.length_cons, List.length_drop, List.length_nil]
  all_goals first
    | omega
    | (have hle := (@List.dropWhile_sublist _ rest isCsiParamChar).length_le
       have h2 := congrArg List.length h
       simp only [List.length_cons] at h2
       omega)
    | (have hle := (@List.dropWhile_sublist _ rest (fun ch => !isDecFinal ch)).length_le
       have h2 := congrArg List.length h
       simp only [List.length_cons] at h2
       omega)

/-- Embedding of `ScreenBuffer.get_screen_lines()`: one string per row, trailing
whitespace stripped. -/
def ScreenBuffer.get_screen_lines (sb : ScreenBuffer) : List String :=
  sb.screen.map (fun row => String.mk (pyRstrip row))

/-- Cell lookup on the grid (defaulting to a space out of range); the
grid-shape invariant makes the defaults unreachable. -/
def ScreenBuffer.cellAt (sb : ScreenBuffer) (r c : Nat) : Char :=
  (sb.screen.getD r []).getD c ' '

/-! ## Shape and cursor invariants -/

/-- A raw grid has `rows` rows of `cols` cells each. -/
def ScreenShape (scr : List (List Char)) (rows cols : Nat) : Prop :=
  scr.length = rows ∧ ∀ i, i < rows → (scr.getD i []).length = cols

/-- The grid of a `ScreenBuffer` matches its declared dimensions. -/
def GridShape (sb : ScreenBuffer) : Prop :=
  ScreenShape sb.screen sb.rows sb.cols

/-- Cursor and saved-cursor stay inside the grid. -/
def ScreenInv (sb : ScreenBuffer) : Prop :=
  sb.cursor_row < sb.rows ∧ sb.cursor_col < sb.cols ∧
    ∀ r c, sb.saved_cursor = some (r, c) → r < sb.rows ∧ c < sb.cols

/-! ## List helper lemmas -/

theorem length_modifyAt {α : Type} (l : List α) (n : Nat) (f : α → α) :
    (modifyAt l n f).length = l.length := by
  induction l generalizing n with
  | nil => rfl
  | cons a l ih =>
    cases n with
    | zero => rfl
    | succ m => simp [modifyAt, ih]

theorem getD_modifyAt {α : Type} (l : List α) (n : Nat) (f : α → α) (i : Nat) (d : α) :
    (modifyAt l n f).getD i d =
      if i = n ∧ n < l.length then f (l.getD n d) else l.getD i d := by
  induction l generalizing n i with
  | nil => simp [modifyAt]
  | cons a l ih =>
    cases n with
    | zero =>
      cases i with
      | zero => simp [modifyAt]
      | succ j => simp [modifyAt]
    | succ m =>
      cases i with
      | zero => simp [modifyAt]
      | succ j =>
        simp only [modifyAt, List.getD_cons_succ, ih, List.length_cons]
        by_cases hjm : j = m <;> simp [hjm]

theorem getD_set {α : Type} (l : List α) (n : Nat) (a : α) (i : Nat) (d : α) :
    (l.set n a).getD i d = if i = n ∧ n < l.length then a else l.getD i d := by
  induction l generalizing n i with
  | nil => simp
  | cons b l ih =>
    cases n with
    | zero =>
      cases i with
      | zero => simp
      | succ j => simp
    | succ m =>
      cases i with
      | zero => simp
      | succ j =>
        simp only [List.set_cons_succ, List.getD_cons_succ, ih, List.length_cons]
        by_cases hjm : j = m <;> simp [hjm]

theorem length_setSpaces (row : List Char) (a n : Nat) :
    (setSpaces row a n).length = row.length := by
  induction n generalizing row a with
  | zero => rfl
  | succ m ih => simp [setSpaces, ih]

theorem length_blankRow (cols : Nat) : (blankRow cols).length = cols := by
  simp [blankRow]

theorem ScreenShape.modifyAt_preserve {scr : List (List Char)} {rows cols : Nat}
    (hs : ScreenShape scr rows cols) (n : Nat) (f : List Char → List Char)
    (hf : ∀ row, row.length = cols → (f row).length = cols) :
    ScreenShape (modifyAt scr n f) rows cols := by
  obtain ⟨hlen, hrow⟩ := hs
  refine ⟨by rw [length_modifyAt]; exact hlen, fun i hi => ?_⟩
  rw [getD_modifyAt]
  by_cases hc : i = n ∧ n < scr.length
  · simp only [hc, if_pos]
    exact hf _ (hrow n (hlen ▸ hc.2))
  · simp only [hc, if_neg, not_false_iff]
    exact hrow i hi

theorem ScreenShape.blankFold_preserve {scr : List (List Char)} {rows cols : Nat}
    (hs : ScreenShape scr rows cols) (rs : List Nat) :
    ScreenShape (rs.foldl (fun s r => modifyAt s r (fun _ => blankRow cols)) scr) rows cols := by
  induction rs generalizing scr with
  | nil => exact hs
  | cons r rs ih =>
    exact ih (hs.modifyAt_preserve r _ (fun _ _ => length_blankRow cols))

theorem ScreenShape.replicate_blank (rows cols : Nat) :
    ScreenShape (List.replicate rows (blankRow cols)) rows cols := by
  refine ⟨List.length_replicate rows _, fun i hi => ?_⟩
  rw [List.getD_eq_getElem?_getD, List.getElem?_replicate]
  simp [hi, length_blankRow]

/-! ## Preservation lemmas for the screen-buffer operations -/

theorem writeCharCore_dims (sb : ScreenBuffer) (c : Char) :
    (sb.writeCharCore c).rows = sb.rows ∧ (sb.writeCharCore c).cols = sb.cols ∧
      (sb.writeCharCore c).saved_cursor = sb.saved_cursor := by
  unfold ScreenBuffer.writeCharCore
  split_ifs <;> simp

theorem wrapOverflow_dims (sb : ScreenBuffer) :
    (sb.wrapOverflow).rows = sb.rows ∧ (sb.wrapOverflow).cols = sb.cols ∧
      (sb.wrapOverflow).saved_cursor = sb.saved_cursor ∧
      (sb.wrapOverflow).screen = sb.screen := by
  unfold ScreenBuffer.wrapOverflow
  split_ifs <;> simp

theorem clampRow_dims (sb : ScreenBuffer) :
    (sb.clampRow).rows = sb.rows ∧ (sb.clampRow).cols = sb.cols ∧
      (sb.clampRow).saved_cursor = sb.saved_cursor ∧
      (sb.clampRow).screen = sb.screen ∧
      (sb.clampRow).cursor_col = sb.cursor_col := by
  unfold ScreenBuffer.clampRow
  split_ifs <;> simp

theorem write_char_dims (sb : ScreenBuffer) (c : Char) :
    (sb.write_char c).rows = sb.rows ∧ (sb.write_char c).cols = sb.cols ∧
      (sb.write_char c).saved_cursor = sb.saved_cursor := by
  unfold ScreenBuffer.write_char
  have h1 := writeCharCore_dims sb c
  have h2 := wrapOverflow_dims (sb.writeCharCore c)
  have h3 := clampRow_dims ((sb.writeCharCore c).wrapOverflow)
  exact ⟨by omega, by omega, by simp_all⟩

theorem wrapOverflow_col_lt (sb : ScreenBuffer) (hc : 0 < sb.cols) :
    (sb.wrapOverflow).cursor_col < sb.cols := by
  unfold ScreenBuffer.wrapOverflow
  split_ifs with h
  · simpa using hc
  · omega

theorem clampRow_row_lt (sb : ScreenBuffer) (hr : 0 < sb.rows) :
    (sb.clampRow).cursor_row < sb.rows := by
  unfold ScreenBuffer.clampRow
  split_ifs with h
  · simp only
    omega
  · omega

theorem write_char_inv {sb : ScreenBuffer} (c : Char) (h : ScreenInv sb) :
    ScreenInv (sb.write_char c) := by
  obtain ⟨hr, hc, hs⟩ := h
  have hrows : 0 < sb.rows := by omega
  have hcols : 0 < sb.cols := by omega
  have h1 := writeCharCore_dims sb c
  have h2 := wrapOverflow_dims (sb.writeCharCore c)
  have h3 := clampRow_dims ((sb.writeCharCore c).wrapOverflow)
  have hcol := wrapOverflow_col_lt (sb.writeCharCore c) (by omega)
  have hrow := clampRow_row_lt ((sb.writeCharCore c).wrapOverflow) (by omega)
  refine ⟨?_, ?_, ?_⟩
  · unfold ScreenBuffer.write_char
    omega
  · unfold ScreenBuffer.write_char
    omega
  · unfold ScreenBuffer.write_char
    intro r c2 hrc2
    rw [h3.2.2.1, h2.2.2.1, h1.2.2] at hrc2
    have := hs r c2 hrc2
    omega

theorem write_char_shape {sb : ScreenBuffer} (c : Char) (h : GridShape sb) :
    GridShape (sb.write_char c) := by
  have h1 := writeCharCore_dims sb c
  have h2 := wrapOverflow_dims (sb.writeCharCore c)
  have h3 := clampRow_dims ((sb.writeCharCore c).wrapOverflow)
  unfold GridShape at h ⊢
  unfold ScreenBuffer.write_char
  rw [h3.2.2.2.1, h2.2.2.2]
  have hscr : ScreenShape (sb.writeCharCore c).screen sb.rows sb.cols := by
    unfold ScreenBuffer.writeCharCore
    split_ifs
    any_goals exact h
    exact h.modifyAt_preserve _ _ (fun row hrow => by rw [List.length_set]; exact hrow)
  have hr := h3.1
  have hc := h3.2.1
  have hr2 := h2.1
  have hc2 := h2.2.1
  rw [show ((sb.writeCharCore c).wrapOverflow).clampRow.rows = sb.rows by omega,
      show ((sb.writeCharCore c).wrapOverflow).clampRow.cols = sb.cols by omega]
  exact hscr

theorem move_cursor_dims (sb : ScreenBuffer) (row col : Int) :
    (sb.move_cursor row col).rows = sb.rows ∧ (sb.move_cursor row col).cols = sb.cols ∧
      (sb.move_cursor row col).saved_cursor = sb.saved_cursor ∧
      (sb.move_cursor row col).screen = sb.screen := by
  simp [ScreenBuffer.move_cursor]

theorem move_cursor_inv {sb : ScreenBuffer} (row col : Int)
    (hr : 0 < sb.rows) (hc : 0 < sb.cols)
    (hs : ∀ r c, sb.saved_cursor = some (r, c) → r < sb.rows ∧ c < sb.cols) :
    ScreenInv (sb.move_cursor row col) := by
  refine ⟨?_, ?_, ?_⟩
  · simp only [ScreenBuffer.move_cursor]
    omega
  · simp only [ScreenBuffer.move_cursor]
    omega
  · simpa [ScreenBuffer.move_cursor] using hs

theorem move_cursor_relative_inv {sb : ScreenBuffer} (dr dc : Int)
    (hr : 0 < sb.rows) (hc : 0 < sb.cols)
    (hs : ∀ r c, sb.saved_cursor = some (r, c) → r < sb.rows ∧ c < sb.cols) :
    ScreenInv (sb.move_cursor_relative dr dc) :=
  move_cursor_inv _ _ hr hc hs

theorem clear_inv {sb : ScreenBuffer} (hr : 0 < sb.rows) (hc : 0 < sb.cols)
    (hs : ∀ r c, sb.saved_cursor = some (r, c) → r < sb.rows ∧ c < sb.cols) :
    ScreenInv sb.clear := by
  exact ⟨by simpa [ScreenBuffer.clear] using hr, by simpa [ScreenBuffer.clear] using hc,
    by simpa [ScreenBuffer.clear] using hs⟩

theorem clear_line_cursor (sb : ScreenBuffer) :
    (sb.clear_line).rows = sb.rows ∧ (sb.clear_line).cols = sb.cols ∧
      (sb.clear_line).cursor_row = sb.cursor_row ∧
      (sb.clear_line).cursor_col = sb.cursor_col ∧
      (sb.clear_line).saved_cursor = sb.saved_cursor := by
  unfold ScreenBuffer.clear_line
  split <;> simp

theorem clear_line_from_start_cursor (sb : ScreenBuffer) :
    (sb.clear_line_from_start).rows = sb.rows ∧ (sb.clear_line_from_start).cols = sb.cols ∧
      (sb.clear_line_from_start).cursor_row = sb.cursor_row ∧
      (sb.clear_line_from_start).cursor_col = sb.cursor_col ∧
      (sb.clear_line_from_start).saved_cursor = sb.saved_cursor := by
  unfold ScreenBuffer.clear_line_from_start
  split <;> simp

theorem clear_entire_line_cursor (sb : ScreenBuffer) :
    (sb.clear_entire_line).rows = sb.rows ∧ (sb.clear_entire_line).cols = sb.cols ∧
      (sb.clear_entire_line).cursor_row = sb.cursor_row ∧
      (sb.clear_entire_line).cursor_col = sb.cursor_col ∧
      (sb.clear_entire_line).saved_cursor = sb.saved_cursor := by
  unfold ScreenBuffer.clear_entire_line
  split <;> simp

theorem clear_line_shape {sb : ScreenBuffer} (h : GridShape sb) :
    GridShape sb.clear_line := by
  unfold GridShape at h ⊢
  have hd := clear_line_cursor sb
  rw [hd.1, hd.2.1]
  unfold ScreenBuffer.clear_line
  split
  · exact h.modifyAt_preserve _ _ (fun row hrow => by rw [length_setSpaces]; exact hrow)
  · exact h

theorem clear_line_from_start_shape {sb : ScreenBuffer} (h : GridShape sb) :
    GridShape sb.clear_line_from_start := by
  unfold GridShape at h ⊢
  have hd := clear_line_from_start_cursor sb
  rw [hd.1, hd.2.1]
  unfold ScreenBuffer.clear_line_from_start
  split
  · exact h.modifyAt_preserve _ _ (fun row hrow => by rw [length_setSpaces]; exact hrow)
  · exact h

theorem clear_entire_line_shape {sb : ScreenBuffer} (h : GridShape sb) :
    GridShape sb.clear_entire_line := by
  unfold GridShape at h ⊢
  have hd := clear_entire_line_cursor sb
  rw [hd.1, hd.2.1]
  unfold ScreenBuffer.clear_entire_line
  split
  · exact h.modifyAt_preserve _ _ (fun _ _ => length_blankRow sb.cols)
  · exact h

theorem clear_shape (sb : ScreenBuffer) : GridShape sb.clear := by
  unfold GridShape ScreenBuffer.clear
  exact ScreenShape.replicate_blank sb.rows sb.cols

/-- Dimension, cursor-invariant and grid-shape preservation between two
buffer states — what every normal `process_ansi_escape` result satisfies. -/
def EscOK (sb sb' : ScreenBuffer) : Prop :=
  sb'.rows = sb.rows ∧ sb'.cols = sb.cols ∧
    (ScreenInv sb → ScreenInv sb') ∧ (GridShape sb → GridShape sb')

theorem EscOK.refl (sb : ScreenBuffer) : EscOK sb sb := ⟨rfl, rfl, id, id⟩

theorem EscOK.move (sb : ScreenBuffer) (row col : Int) :
    EscOK sb (sb.move_cursor row col) := by
  have hd := move_cursor_dims sb row col
  refine ⟨hd.1, hd.2.1, ?_, ?_⟩
  · rintro ⟨hr, hcc, hs⟩
    exact move_cursor_inv row col (by omega) (by omega) hs
  · intro hg
    unfold GridShape
    rw [hd.1, hd.2.1, hd.2.2.2]
    exact hg

theorem EscOK.moveRel (sb : ScreenBuffer) (dr dc : Int) :
    EscOK sb (sb.move_cursor_relative dr dc) :=
  EscOK.move sb _ _

theorem EscOK.clear (sb : ScreenBuffer) : EscOK sb sb.clear := by
  refine ⟨rfl, rfl, ?_, fun _ => clear_shape sb⟩
  rintro ⟨hr, hcc, hs⟩
  exact clear_inv (by omega) (by omega) (by simpa [ScreenBuffer.clear] using hs)

theorem EscOK.of_cursor_saved_eq {sb sb' : ScreenBuffer}
    (hr : sb'.rows = sb.rows) (hc : sb'.cols = sb.cols)
    (hcr : sb'.cursor_row = sb.cursor_row) (hcc : sb'.cursor_col = sb.cursor_col)
    (hsv : sb'.saved_cursor = sb.saved_cursor)
    (hshape : GridShape sb → GridShape sb') : EscOK sb sb' := by
  refine ⟨hr, hc, ?_, hshape⟩
  rintro ⟨h1, h2, h3⟩
  refine ⟨by omega, by omega, ?_⟩
  intro r c hrc
  rw [hsv] at hrc
  have := h3 r c hrc
  omega

theorem EscOK.clear_line (sb : ScreenBuffer) : EscOK sb sb.clear_line := by
  have hd := clear_line_cursor sb
  exact EscOK.of_cursor_saved_eq hd.1 hd.2.1 hd.2.2.1 hd.2.2.2.1 hd.2.2.2.2
    (fun hg => clear_line_shape hg)

theorem EscOK.clear_line_from_start (sb : ScreenBuffer) :
    EscOK sb sb.clear_line_from_start := by
  have hd := clear_line_from_start_cursor sb
  exact EscOK.of_cursor_saved_eq hd.1 hd.2.1 hd.2.2.1 hd.2.2.2.1 hd.2.2.2.2
    (fun hg => clear_line_from_start_shape hg)

theorem EscOK.clear_entire_line (sb : ScreenBuffer) :
    EscOK sb sb.clear_entire_line := by
  have hd := clear_entire_line_cursor sb
  exact EscOK.of_cursor_saved_eq hd.1 hd.2.1 hd.2.2.1 hd.2.2.2.1 hd.2.2.2.2
    (fun hg => clear_entire_line_shape hg)

theorem clearToEnd_cursor (sb : ScreenBuffer) :
    (sb.clearToEnd).rows = sb.rows ∧ (sb.clearToEnd).cols = sb.cols ∧
      (sb.clearToEnd).cursor_row = sb.cursor_row ∧
      (sb.clearToEnd).cursor_col = sb.cursor_col ∧
      (sb.clearToEnd).saved_cursor = sb.saved_cursor := by
  have hd := clear_line_cursor sb
  unfold ScreenBuffer.clearToEnd
  exact ⟨hd.1, hd.2.1, hd.2.2.1, hd.2.2.2.1, hd.2.2.2.2⟩

theorem clearToEnd_shape {sb : ScreenBuffer} (hg : GridShape sb) :
    GridShape sb.clearToEnd := by
  have hg1 : GridShape sb.clear_line := clear_line_shape hg
  unfold GridShape at hg1 ⊢
  simp only [ScreenBuffer.clearToEnd]
  exact hg1.blankFold_preserve _

theorem EscOK.clearBelow (sb : ScreenBuffer) : EscOK sb sb.clearToEnd := by
  have hd := clearToEnd_cursor sb
  exact EscOK.of_cursor_saved_eq hd.1 hd.2.1 hd.2.2.1 hd.2.2.2.1 hd.2.2.2.2
    (fun hg => clearToEnd_shape hg)

theorem EscOK.save (sb : ScreenBuffer) :
    EscOK sb { sb with saved_cursor := some (sb.cursor_row, sb.cursor_col) } := by
  refine ⟨rfl, rfl, ?_, fun hg => hg⟩
  rintro ⟨h1, h2, _⟩
  refine ⟨h1, h2, ?_⟩
  intro r c hrc
  have hrc2 : some (sb.cursor_row, sb.cursor_col) = some (r, c) := hrc
  simp only [Option.some.injEq, Prod.mk.injEq] at hrc2
  exact ⟨hrc2.1 ▸ h1, hrc2.2 ▸ h2⟩

theorem EscOK.restore {sb : ScreenBuffer} {r c : Nat}
    (hsv : sb.saved_cursor = some (r, c)) :
    EscOK sb { sb with cursor_row := r, cursor_col := c } := by
  refine ⟨rfl, rfl, ?_, fun hg => hg⟩
  rintro ⟨h1, h2, h3⟩
  have := h3 r c hsv
  exact ⟨this.1, this.2, fun r2 c2 hrc2 => h3 r2 c2 hrc2⟩

/-- Master lemma for the CSI dispatch: a normally-returning dispatch
preserves the dimensions, the cursor invariant and the grid shape. -/
theorem processCsi_spec {sb sb' : ScreenBuffer} {b : Bool} {csi_body : List Char}
    (h : sb.processCsi csi_body = some (sb', b)) : EscOK sb sb' := by
  unfold ScreenBuffer.processCsi at h
  by_cases h1 : csi_body.getLast? = some 'H' ∨ csi_body.getLast? = some 'f'
  · rw [if_pos h1] at h
    rcases hp : csiParam (splitSemi csi_body.dropLast) 0 with _ | row <;> rw [hp] at h
    · cases h
    rcases hq : csiParam (splitSemi csi_body.dropLast) 1 with _ | col <;> rw [hq] at h
    · cases h
    simp only [Option.some.injEq, Prod.mk.injEq] at h
    rw [← h.1]
    exact EscOK.move sb row col
  rw [if_neg h1] at h
  by_cases h2 : csi_body.getLast? = some 'A'
  · rw [if_pos h2] at h
    rcases hn : csiCount csi_body.dropLast with _ | n <;> rw [hn] at h
    · cases h
    simp only [Option.map_some', Option.some.injEq, Prod.mk.injEq] at h
    rw [← h.1]
    exact EscOK.moveRel sb _ _
  rw [if_neg h2] at h
  by_cases h3 : csi_body.getLast? = some 'B'
  · rw [if_pos h3] at h
    rcases hn : csiCount csi_body.dropLast with _ | n <;> rw [hn] at h
    · cases h
    simp only [Option.map_some', Option.some.injEq, Prod.mk.injEq] at h
    rw [← h.1]
    exact EscOK.moveRel sb _ _
  rw [if_neg h3] at h
  by_cases h4 : csi_body.getLast? = some 'C'
  · rw [if_pos h4] at h
    rcases hn : csiCount csi_body.dropLast with _ | n <;> rw [hn] at h
    · cases h
    simp only [Option.map_some', Option.some.injEq, Prod.mk.injEq] at h
    rw [← h.1]
    exact EscOK.moveRel sb _ _
  rw [if_neg h4] at h
  by_cases h5 : csi_body.getLast? = some 'D'
  · rw [if_pos h5] at h
    rcases hn : csiCount csi_body.dropLast with _ | n <;> rw [hn] at h
    · cases h
    simp only [Option.map_some', Option.some.injEq, Prod.mk.injEq] at h
    rw [← h.1]
    exact EscOK.moveRel sb _ _
  rw [if_neg h5] at h
  by_cases h6 : csi_body = ['2', 'J']
  · rw [if_pos h6] at h
    simp only [Option.some.injEq, Prod.mk.injEq] at h
    rw [← h.1]
    exact EscOK.clear sb
  rw [if_neg h6] at h
  by_cases h7 : csi_body = ['J'] ∨ csi_body = ['0', 'J']
  · rw [if_pos h7] at h
    simp only [Option.some.injEq, Prod.mk.injEq] at h
    rw [← h.1]
    exact EscOK.clearBelow sb
  rw [if_neg h7] at h
  by_cases h8 : csi_body = ['K'] ∨ csi_body = ['0', 'K']
  · rw [if_pos h8] at h
    simp only [Option.some.injEq, Prod.mk.injEq] at h
    rw [← h.1]
    exact EscOK.clear_line sb
  rw [if_neg h8] at h
  by_cases h9 : csi_body = ['1', 'K']
  · rw [if_pos h9] at h
    simp only [Option.some.injEq, Prod.mk.injEq] at h
    rw [← h.1]
    exact EscOK.clear_line_from_start sb
  rw [if_neg h9] at h
  by_cases h10 : csi_body = ['2', 'K']
  · rw [if_pos h10] at h
    simp only [Option.some.injEq, Prod.mk.injEq] at h
    rw [← h.1]
    exact EscOK.clear_entire_line sb
  rw [if_neg h10] at h
  by_cases h11 : csi_body = ['s']
  · rw [if_pos h11] at h
    simp only [Option.some.injEq, Prod.mk.injEq] at h
    rw [← h.1]
    exact EscOK.save sb
  rw [if_neg h11] at h
  by_cases h12 : csi_body = ['u']
  · rw [if_pos h12] at h
    rcases hsv : sb.saved_cursor with _ | ⟨r, c⟩ <;> rw [hsv] at h <;>
      simp only [Option.some.injEq, Prod.mk.injEq] at h <;> rw [← h.1]
    · exact EscOK.refl sb
    · rw [← hsv]
      exact EscOK.restore hsv
  rw [if_neg h12] at h
  by_cases h13 : csi_body.getLast? = some 'm'
  · rw [if_pos h13] at h
    simp only [Option.some.injEq, Prod.mk.injEq] at h
    rw [← h.1]
    exact EscOK.refl sb
  rw [if_neg h13] at h
  simp only [Option.some.injEq, Prod.mk.injEq] at h
  rw [← h.1]
  exact EscOK.refl sb

theorem EscOK.trans {a b c : ScreenBuffer} (h1 : EscOK a b) (h2 : EscOK b c) :
    EscOK a c := by
  obtain ⟨r1, c1, i1, s1⟩ := h1
  obtain ⟨r2, c2, i2, s2⟩ := h2
  exact ⟨r2.trans r1, c2.trans c1, fun h => i2 (i1 h), fun h => s2 (s1 h)⟩

theorem EscOK.write_char (sb : ScreenBuffer) (c : Char) :
    EscOK sb (sb.write_char c) := by
  have hd := write_char_dims sb c
  exact ⟨hd.1, hd.2.1, fun h => write_char_inv c h, fun h => write_char_shape c h⟩

/-- Master lemma for `process_ansi_escape`. -/
theorem process_ansi_escape_spec {sb sb' : ScreenBuffer} {b : Bool} {seq : List Char}
    (h : sb.process_ansi_escape seq = some (sb', b)) : EscOK sb sb' := by
  rcases seq with _ | ⟨c0, csi_body⟩
  · simp only [ScreenBuffer.process_ansi_escape, Option.some.injEq, Prod.mk.injEq] at h
    rw [← h.1]
    exact EscOK.refl sb
  simp only [ScreenBuffer.process_ansi_escape] at h
  by_cases hc0 : c0 = '['
  · rw [if_pos hc0] at h
    exact processCsi_spec h
  · rw [if_neg hc0] at h
    simp only [Option.some.injEq, Prod.mk.injEq] at h
    rw [← h.1]
    exact EscOK.refl sb

theorem process_output_nil (sb : ScreenBuffer) : sb.process_output [] = some sb := by
  simp [ScreenBuffer.process_output]

/-- Unfolding lemma: a complete CSI sequence is dispatched and the scan
resumes after its final byte. -/
theorem process_output_csi_some {sb sb1 : ScreenBuffer} {flag : Bool}
    {rest rest' : List Char} {final : Char}
    (hdrop : rest.dropWhile isCsiParamChar = final :: rest')
    (hesc : sb.process_ansi_escape ('[' :: (rest.takeWhile isCsiParamChar ++ [final])) =
      some (sb1, flag)) :
    sb.process_output ('\x1b' :: '[' :: rest) = sb1.process_output rest' := by
  simp only [ScreenBuffer.process_output]
  split
  · split
    · rename_i f2 r2 heq
      rw [hdrop] at heq
      injection heq with h1 h2
      subst h1
      subst h2
      rw [hesc]
    · rename_i heq
      rw [hdrop] at heq
      cases heq
  · rename_i hT
    exact absurd trivial hT

/-- Unfolding lemma: a CSI dispatch that raises aborts the whole scan. -/
theorem process_output_csi_none {sb : ScreenBuffer} {rest rest' : List Char} {final : Char}
    (hdrop : rest.dropWhile isCsiParamChar = final :: rest')
    (hesc : sb.process_ansi_escape ('[' :: (rest.takeWhile isCsiParamChar ++ [final])) = none) :
    sb.process_output ('\x1b' :: '[' :: rest) = none := by
  simp only [ScreenBuffer.process_output]
  split
  · split
    · rename_i f2 r2 heq
      rw [hdrop] at heq
      injection heq with h1 h2
      subst h1
      subst h2
      rw [hesc]
    · rename_i heq
      rw [hdrop] at heq
      cases heq
  · rename_i hT
    exact absurd trivial hT

/-- Unfolding lemma: a truncated CSI sequence only skips `ESC [` and the
scan resumes at the parameter bytes. -/
theorem process_output_csi_trunc {sb : ScreenBuffer} {rest : List Char}
    (hdrop : rest.dropWhile isCsiParamChar = []) :
    sb.process_output ('\x1b' :: '[' :: rest) = sb.process_output rest := by
  simp only [ScreenBuffer.process_output]
  split
  · split
    · rename_i f2 r2 heq
      rw [hdrop] at heq
      cases heq
    · rfl
  · rename_i hT
    exact absurd trivial hT

/-- Unfolding lemma: `ESC (` skips three bytes. -/
theorem process_output_esc_paren (sb : ScreenBuffer) (rest : List Char) :
    sb.process_output ('\x1b' :: '(' :: rest) = sb.process_output (rest.drop 1) := by
  simp [ScreenBuffer.process_output]

/-- Unfolding lemma: `ESC =`, `ESC >`, `ESC <` skip two bytes. -/
theorem process_output_esc_keypad {c : Char} (sb : ScreenBuffer) (rest : List Char)
    (hc : c = '=' ∨ c = '>' ∨ c = '<') :
    sb.process_output ('\x1b' :: c :: rest) = sb.process_output rest := by
  rcases hc with hc | hc | hc <;> subst hc <;> simp [ScreenBuffer.process_output]

/-- Unfolding lemma: `ESC ?` with no `h`/`l`/`H` terminator consumes the
whole input. -/
theorem process_output_esc_dec_nil {sb : ScreenBuffer} {rest : List Char}
    (hdrop : rest.dropWhile (fun ch => !isDecFinal ch) = []) :
    sb.process_output ('\x1b' :: '?' :: rest) = some sb := by
  simp only [ScreenBuffer.process_output]
  split
  · rename_i hT
    cases hT
  · split
    · rename_i hT
      cases hT
    · split
      · rename_i hT
        rcases hT with hT | hT | hT <;> cases hT
      · split
        · split
          · rfl
          · rename_i heq
            rw [hdrop] at heq
            cases heq
        · rename_i hT
          exact absurd trivial hT

/-- Unfolding lemma: `ESC ?` resumes right after the first `h`/`l`/`H`. -/
theorem process_output_esc_dec_cons {sb : ScreenBuffer} {rest rest' : List Char} {head : Char}
    (hdrop : rest.dropWhile (fun ch => !isDecFinal ch) = head :: rest') :
    sb.process_output ('\x1b' :: '?' :: rest) = sb.process_output rest' := by
  simp only [ScreenBuffer.process_output]
  split
  · rename_i hT
    cases hT
  · split
    · rename_i hT
      cases hT
    · split
      · rename_i hT
        rcases hT with hT | hT | hT <;> cases hT
      · split
        · split
          · rename_i heq
            rw [hdrop] at heq
            cases heq
          · rename_i h2 r2 heq
            rw [hdrop] at heq
            injection heq with h1 h2
            subst h2
            rfl
        · rename_i hT
          exact absurd trivial hT

/-- Unfolding lemma: any other `ESC x` pair is skipped. -/
theorem process_output_esc_unknown {c : Char} (sb : ScreenBuffer) (rest : List Char)
    (h1 : ¬c = '[') (h2 : ¬c = '(') (h3 : ¬(c = '=' ∨ c = '>' ∨ c = '<')) (h4 : ¬c = '?') :
    sb.process_output ('\x1b' :: c :: rest) = sb.process_output rest := by
  simp only [ScreenBuffer.process_output]
  rw [if_neg h1, if_neg h2, if_neg h3, if_neg h4]

/-- Total step equation for the CSI branch, with a plain (non-dependent)
match on the right-hand side, usable for evaluation. -/
theorem process_output_csi_step (sb : ScreenBuffer) (rest : List Char) :
    sb.process_output ('\x1b' :: '[' :: rest) =
      (match rest.dropWhile isCsiParamChar with
       | final :: rest' =>
         (match sb.process_ansi_escape ('[' :: (rest.takeWhile isCsiParamChar ++ [final])) with
          | some (sb1, _) => sb1.process_output rest'
          | none => none)
       | [] => sb.process_output rest) := by
  rcases hdrop : rest.dropWhile isCsiParamChar with _ | ⟨final, rest'⟩
  · rw [process_output_csi_trunc hdrop]
  · rcases hesc : sb.process_ansi_escape ('[' :: (rest.takeWhile isCsiParamChar ++ [final]))
      with _ | ⟨sb1, flag⟩
    · rw [process_output_csi_none hdrop hesc]
      simp [hesc]
    · rw [process_output_csi_some hdrop hesc]
      simp [hesc]

/-- Total step equation for the `ESC ?` branch. -/
theorem process_output_esc_dec_step (sb : ScreenBuffer) (rest : List Char) :
    sb.process_output ('\x1b' :: '?' :: rest) =
      (match rest.dropWhile (fun ch => !isDecFinal ch) with
       | [] => some sb
       | _ :: rest' => sb.process_output rest') := by
  rcases hdrop : rest.dropWhile (fun ch => !isDecFinal ch) with _ | ⟨head, rest'⟩
  · rw [process_output_esc_dec_nil hdrop]
  · rw [process_output_esc_dec_cons hdrop]

/-- Unfolding lemma: a character that does not open an escape sequence
(is not ESC, or is a trailing ESC) goes through `write_char`. -/
theorem process_output_reg {sb : ScreenBuffer} {c : Char} {rest : List Char}
    (hne : c = '\x1b' → rest = []) :
    sb.process_output (c :: rest) = (sb.write_char c).process_output rest := by
  rcases rest with _ | ⟨c2, rest2⟩
  · by_cases hc : c = '\x1b'
    · subst hc
      simp [ScreenBuffer.process_output]
    · simp [ScreenBuffer.process_output, hc]
  · have hc : ¬c = '\x1b' := fun hceq => by cases hne hceq
    simp [ScreenBuffer.process_output, hc]

/-- Master lemma for `process_output`: whenever the scan returns normally,
dimensions, the cursor invariant and the grid shape are preserved. -/
theorem process_output_spec {sb : ScreenBuffer} {cs : List Char} :
    ∀ {sb' : ScreenBuffer}, sb.process_output cs = some sb' → EscOK sb sb' := by
  induction sb, cs using ScreenBuffer.process_output.induct with
  | case1 sb =>
    intro sb' h
    simp only [ScreenBuffer.process_output, Option.some.injEq] at h
    subst h
    exact EscOK.refl sb
  | case2 sb rest params final rest' hdrop sb1 flag hesc =>
    rename_i ih
    intro sb' h
    rw [process_output_csi_some hdrop hesc] at h
    exact (process_ansi_escape_spec hesc).trans (ih h)
  | case3 sb rest params final rest' hdrop =>
    rename_i hesc
    intro sb' h
    rw [process_output_csi_none hdrop hesc] at h
    cases h
  | case4 sb rest hdrop =>
    rename_i ih
    intro sb' h
    rw [process_output_csi_trunc hdrop] at h
    exact ih h
  | case5 sb rest hne =>
    rename_i ih
    intro sb' h
    rw [process_output_esc_paren] at h
    exact ih h
  | case6 sb c rest h1 h2 h3 =>
    rename_i ih
    intro sb' h
    rw [process_output_esc_keypad sb rest h3] at h
    exact ih h
  | case7 sb rest hdrop h1 h2 h3 =>
    rename_i ih
    intro sb' h
    rw [process_output_esc_dec_nil hdrop] at h
    cases h
    exact EscOK.refl sb
  | case8 sb rest head rest' hdrop h1 h2 h3 =>
    rename_i ih
    intro sb' h
    rw [process_output_esc_dec_cons hdrop] at h
    exact ih h
  | case9 sb c rest h1 h2 h3 h4 =>
    rename_i ih
    intro sb' h
    rw [process_output_esc_unknown sb rest h1 h2 h3 h4] at h
    exact ih h
  | case10 sb c rest hne =>
    rename_i ih
    intro sb' h
    have hnil : c = '\x1b' → rest = [] := by
      intro hceq
      cases hx : rest with
      | nil => rfl
      | cons c2 r2 => exact (hne c2 r2 hceq hx).elim
    rw [process_output_reg hnil] at h
    exact (EscOK.write_char sb c).trans (ih h)

/-! ## Printable runs (claim C2) -/

/-- An ASCII-printable character. -/
def Printable (c : Char) : Prop := 32 ≤ c.toNat ∧ c.toNat < 127

instance (c : Char) : Decidable (Printable c) := by
  unfold Printable
  infer_instance

theorem Printable.ne_ctrl {ch : Char} (h : Printable ch) :
    ch ≠ '\n' ∧ ch ≠ '\x0d' ∧ ch ≠ '\t' ∧ ch ≠ '\x08' ∧ ch ≠ '\x1b' := by
  obtain ⟨h1, h2⟩ := h
  refine ⟨?_, ?_, ?_, ?_, ?_⟩ <;> rintro rfl <;> revert h1 <;> decide

/-- Row-major positions determine the row and column uniquely. -/
theorem rowcol_inj {cols i j r c : Nat} (hj : j < cols) (hc : c < cols) :
    i * cols + j = r * cols + c ↔ i = r ∧ j = c := by
  constructor
  · intro h
    have hcols : 0 < cols := Nat.lt_of_le_of_lt (Nat.zero_le _) hj
    have h1 : (cols * i + j) / cols = i := by
      rw [Nat.mul_add_div hcols, Nat.div_eq_of_lt hj, Nat.add_zero]
    have h2 : (cols * r + c) / cols = r := by
      rw [Nat.mul_add_div hcols, Nat.div_eq_of_lt hc, Nat.add_zero]
    have hir : i = r := by
      rw [← h1, ← h2, Nat.mul_comm cols i, Nat.mul_comm cols r, h]
    refine ⟨hir, ?_⟩
    subst hir
    omega
  · rintro ⟨rfl, rfl⟩
    rfl

theorem getD_replicate {α : Type} (n i : Nat) (x d : α) :
    (List.replicate n x).getD i d = if i < n then x else d := by
  rcases Nat.lt_or_ge i n with hi | hi
  · rw [List.getD_eq_getElem?_getD, List.getElem?_replicate, if_pos hi, if_pos hi]
    rfl
  · rw [List.getD_eq_getElem?_getD, List.getElem?_replicate, if_neg (by omega),
      if_neg (by omega)]
    rfl

theorem getD_blankRow (cols j : Nat) : (blankRow cols).getD j ' ' = ' ' := by
  unfold blankRow
  rw [getD_replicate]
  split <;> rfl

theorem init_cellAt (rows cols i j : Nat) :
    (ScreenBuffer.init rows cols).cellAt i j = ' ' := by
  unfold ScreenBuffer.cellAt ScreenBuffer.init
  simp only
  rw [getD_replicate]
  split
  · exact getD_blankRow cols j
  · rfl

theorem init_shape (rows cols : Nat) : GridShape (ScreenBuffer.init rows cols) :=
  ScreenShape.replicate_blank rows cols

theorem init_inv (rows cols : Nat) (hr : 0 < rows) (hc : 0 < cols) :
    ScreenInv (ScreenBuffer.init rows cols) := by
  refine ⟨by simpa [ScreenBuffer.init] using hr, by simpa [ScreenBuffer.init] using hc, ?_⟩
  intro r c hrc
  simp [ScreenBuffer.init] at hrc

/-- A printable character at an in-bounds cursor is stored in the grid. -/
theorem write_char_printable_screen {sb : ScreenBuffer} {ch : Char} (hch : Printable ch)
    (hr : sb.cursor_row < sb.rows) (hc : sb.cursor_col < sb.cols) :
    (sb.write_char ch).screen =
      modifyAt sb.screen sb.cursor_row (fun row => row.set sb.cursor_col ch) := by
  obtain ⟨hn1, hn2, hn3, hn4, _⟩ := hch.ne_ctrl
  unfold ScreenBuffer.write_char
  rw [(clampRow_dims _).2.2.2.1, (wrapOverflow_dims _).2.2.2]
  unfold ScreenBuffer.writeCharCore
  rw [if_neg hn1, if_neg hn2, if_neg hn3, if_neg hn4]
  simp only [if_pos (And.intro hr hc)]

theorem wrapOverflow_pos {sb : ScreenBuffer} (h : sb.cursor_col ≥ sb.cols) :
    (sb.wrapOverflow).cursor_row = sb.cursor_row + 1 ∧ (sb.wrapOverflow).cursor_col = 0 := by
  unfold ScreenBuffer.wrapOverflow
  rw [if_pos h]
  exact ⟨rfl, rfl⟩

theorem wrapOverflow_neg {sb : ScreenBuffer} (h : ¬sb.cursor_col ≥ sb.cols) :
    (sb.wrapOverflow).cursor_row = sb.cursor_row ∧
      (sb.wrapOverflow).cursor_col = sb.cursor_col := by
  unfold ScreenBuffer.wrapOverflow
  rw [if_neg h]
  exact ⟨rfl, rfl⟩

theorem clampRow_neg {sb : ScreenBuffer} (h : ¬sb.cursor_row ≥ sb.rows) :
    (sb.clampRow).cursor_row = sb.cursor_row := by
  unfold ScreenBuffer.clampRow
  rw [if_neg h]

/-- Cursor arithmetic of a printable write that is not the last cell of the
grid: the row-major position advances by one and stays in bounds. -/
theorem write_char_printable_cursor {sb : ScreenBuffer} {ch : Char} (hch : Printable ch)
    (hr : sb.cursor_row < sb.rows) (hc : sb.cursor_col < sb.cols)
    (hnl : sb.cursor_row * sb.cols + sb.cursor_col + 1 < sb.rows * sb.cols) :
    (sb.write_char ch).cursor_row * sb.cols + (sb.write_char ch).cursor_col =
        sb.cursor_row * sb.cols + sb.cursor_col + 1 ∧
      (sb.write_char ch).cursor_row < sb.rows ∧
      (sb.write_char ch).cursor_col < sb.cols := by
  obtain ⟨hn1, hn2, hn3, hn4, _⟩ := hch.ne_ctrl
  have hcore : (sb.writeCharCore ch).cursor_row = sb.cursor_row ∧
      (sb.writeCharCore ch).cursor_col = sb.cursor_col + 1 ∧
      (sb.writeCharCore ch).rows = sb.rows ∧ (sb.writeCharCore ch).cols = sb.cols := by
    unfold ScreenBuffer.writeCharCore
    rw [if_neg hn1, if_neg hn2, if_neg hn3, if_neg hn4]
    exact ⟨rfl, rfl, rfl, rfl⟩
  obtain ⟨e1, e2, e3, e4⟩ := hcore
  have hwdim := wrapOverflow_dims (sb.writeCharCore ch)
  have hcdim := clampRow_dims ((sb.writeCharCore ch).wrapOverflow)
  unfold ScreenBuffer.write_char
  rcases Nat.lt_or_ge (sb.cursor_col + 1) sb.cols with hlt | hge
  · have hnw : ¬(sb.writeCharCore ch).cursor_col ≥ (sb.writeCharCore ch).cols := by
      rw [e2, e4]
      omega
    obtain ⟨w1, w2⟩ := wrapOverflow_neg hnw
    have hncl : ¬((sb.writeCharCore ch).wrapOverflow).cursor_row ≥
        ((sb.writeCharCore ch).wrapOverflow).rows := by
      rw [w1, e1, hwdim.1, e3]
      omega
    rw [clampRow_neg hncl, hcdim.2.2.2.2, w1, w2, e1, e2]
    exact ⟨by ring, hr, hlt⟩
  · have heq2 : sb.cursor_col + 1 = sb.cols := by omega
    have hw : (sb.writeCharCore ch).cursor_col ≥ (sb.writeCharCore ch).cols := by
      rw [e2, e4]
      omega
    obtain ⟨w1, w2⟩ := wrapOverflow_pos hw
    have hrow1 : sb.cursor_row + 1 < sb.rows := by
      by_contra hcon
      have hreq : sb.cursor_row + 1 = sb.rows := by omega
      have hx : (sb.cursor_row + 1) * sb.cols = sb.cursor_row * sb.cols + sb.cols := by ring
      rw [← hreq] at hnl
      omega
    have hncl : ¬((sb.writeCharCore ch).wrapOverflow).cursor_row ≥
        ((sb.writeCharCore ch).wrapOverflow).rows := by
      rw [w1, e1, hwdim.1, e3]
      omega
    rw [clampRow_neg hncl, hcdim.2.2.2.2, w1, w2, e1]
    refine ⟨?_, by omega, by omega⟩
    have hx : (sb.cursor_row + 1) * sb.cols = sb.cursor_row * sb.cols + sb.cols := by ring
    omega

/-- Effect of one printable write on an arbitrary cell. -/
theorem cellAt_write {sb : ScreenBuffer} {ch : Char} (hg : GridShape sb)
    (hr : sb.cursor_row < sb.rows) (hc : sb.cursor_col < sb.cols) (hch : Printable ch)
    (i j : Nat) :
    (sb.write_char ch).cellAt i j =
      if i = sb.cursor_row ∧ j = sb.cursor_col then ch else sb.cellAt i j := by
  have hlen : sb.screen.length = sb.rows := hg.1
  have hrowlen : (sb.screen.getD sb.cursor_row []).length = sb.cols := hg.2 _ hr
  unfold ScreenBuffer.cellAt
  rw [write_char_printable_screen hch hr hc, getD_modifyAt]
  by_cases hi : i = sb.cursor_row
  · rw [if_pos ⟨hi, by omega⟩, getD_set]
    by_cases hj : j = sb.cursor_col
    · rw [if_pos ⟨hj, by omega⟩, if_pos ⟨hi, hj⟩]
    · rw [if_neg (fun hcon => hj hcon.1), if_neg (fun hcon => hj hcon.2), hi]
  · rw [if_neg (fun hcon => hi hcon.1), if_neg (fun hcon => hi hcon.1)]

theorem getD_cons_shift (ch : Char) (rest : List Char) (P T : Nat) (h : T + 1 ≤ P) :
    (ch :: rest).getD (P - T) ' ' = rest.getD (P - (T + 1)) ' ' := by
  have hs : P - T = (P - (T + 1)) + 1 := by omega
  rw [hs, List.getD_cons_succ]

/-- Main run lemma for claim C2: a printable-only run writes each pending
character at consecutive row-major positions and touches nothing else. -/
theorem printable_run (rows cols : Nat) :
    ∀ (pending : List Char) (sb : ScreenBuffer) (r c : Nat),
      (∀ ch ∈ pending, Printable ch) →
      sb.rows = rows → sb.cols = cols →
      sb.cursor_row = r → sb.cursor_col = c →
      r < rows → c < cols → GridShape sb →
      r * cols + c + pending.length ≤ rows * cols →
      ∃ sb', sb.process_output pending = some sb' ∧
        (∀ i j, j < cols →
          sb'.cellAt i j =
            if r * cols + c ≤ i * cols + j ∧
                i * cols + j < r * cols + c + pending.length then
              pending.getD (i * cols + j - (r * cols + c)) ' '
            else sb.cellAt i j) := by
  intro pending
  induction pending with
  | nil =>
    intro sb r c hp h1 h2 h3 h4 h5 h6 hg hlen
    refine ⟨sb, process_output_nil sb, ?_⟩
    intro i j hj
    rw [if_neg (by rintro ⟨hc1, hc2⟩; simp only [List.length_nil] at hc2; omega)]
  | cons ch rest ih =>
    intro sb r c hp h1 h2 h3 h4 h5 h6 hg hlen
    have hpr : Printable ch := hp ch (List.mem_cons_self ch rest)
    have hrest : ∀ x ∈ rest, Printable x := fun x hx => hp x (List.mem_cons_of_mem _ hx)
    have hne : ch ≠ '\x1b' := hpr.ne_ctrl.2.2.2.2
    have hrF : sb.cursor_row < sb.rows := by omega
    have hcF : sb.cursor_col < sb.cols := by omega
    have hstep := cellAt_write hg hrF hcF hpr
    rw [h3, h4] at hstep
    rw [process_output_reg (fun hceq => absurd hceq hne)]
    by_cases hre : rest = []
    · subst hre
      rw [process_output_nil]
      refine ⟨_, rfl, ?_⟩
      intro i j hj
      rw [hstep i j]
      have hiff := @rowcol_inj cols i j r c hj h6
      by_cases hpt : i = r ∧ j = c
      · have hP : i * cols + j = r * cols + c := hiff.2 hpt
        have hcnd : r * cols + c ≤ i * cols + j ∧
            i * cols + j < r * cols + c + [ch].length := by
          simp only [List.length_cons, List.length_nil]
          omega
        rw [if_pos hpt, if_pos hcnd]
        rw [show i * cols + j - (r * cols + c) = 0 from by omega]
        rfl
      · have hP : i * cols + j ≠ r * cols + c := fun he => hpt (hiff.1 he)
        have hcnd : ¬(r * cols + c ≤ i * cols + j ∧
            i * cols + j < r * cols + c + [ch].length) := by
          rintro ⟨hc1, hc2⟩
          simp only [List.length_cons, List.length_nil] at hc2
          omega
        rw [if_neg hpt, if_neg hcnd]
    · have hlr : 1 ≤ rest.length := by
        rcases rest with _ | ⟨x, xs⟩
        · exact absurd rfl hre
        · simp
      have hlen1 : sb.cursor_row * sb.cols + sb.cursor_col + 1 < sb.rows * sb.cols := by
        rw [h1, h2, h3, h4]
        simp only [List.length_cons] at hlen
        omega
      have hcur := write_char_printable_cursor hpr hrF hcF hlen1
      rw [h1, h2, h3, h4] at hcur
      have hdims := write_char_dims sb ch
      have hshape := write_char_shape ch hg
      obtain ⟨sb', hrun, hcells⟩ := ih (sb.write_char ch)
        ((sb.write_char ch).cursor_row) ((sb.write_char ch).cursor_col)
        hrest (by rw [hdims.1, h1]) (by rw [hdims.2.1, h2]) rfl rfl
        hcur.2.1 hcur.2.2 hshape
        (by rw [hcur.1]; simp only [List.length_cons] at hlen; omega)
      refine ⟨sb', hrun, ?_⟩
      intro i j hj
      rw [hcells i j hj, hcur.1]
      have hiff := @rowcol_inj cols i j r c hj h6
      by_cases hA : r * cols + c + 1 ≤ i * cols + j ∧
          i * cols + j < r * cols + c + 1 + rest.length
      · have hcnd : r * cols + c ≤ i * cols + j ∧
            i * cols + j < r * cols + c + (ch :: rest).length := by
          simp only [List.length_cons]
          omega
        rw [if_pos hA, if_pos hcnd, getD_cons_shift ch rest _ _ hA.1]
      · rw [if_neg hA, hstep i j]
        by_cases hpt : i = r ∧ j = c
        · have hP : i * cols + j = r * cols + c := hiff.2 hpt
          have hcnd : r * cols + c ≤ i * cols + j ∧
              i * cols + j < r * cols + c + (ch :: rest).length := by
            simp only [List.length_cons]
            omega
          rw [if_pos hpt, if_pos hcnd]
          rw [show i * cols + j - (r * cols + c) = 0 from by omega]
          rfl
        · have hP : i * cols + j ≠ r * cols + c := fun he => hpt (hiff.1 he)
          have hcnd : ¬(r * cols + c ≤ i * cols + j ∧
              i * cols + j < r * cols + c + (ch :: rest).length) := by
            rintro ⟨hc1, hc2⟩
            simp only [List.length_cons] at hc2
            omega
          rw [if_neg hpt, if_neg hcnd]

/-! ## `Terminal` (terminal.py, observable pure fragment)

`Terminal` wraps OS resources (a PTY master fd and a child pid).  The
embedding keeps the pure, observable state: the stored dimensions, the
optional master fd and pid, and the `_running` flag.  OS calls
(`os.write`, `os.kill`, `waitpid`) are modelled by their effect on this
state; `Terminal.write` returns the `(fd, data)` pair it would hand to
`os.write`. -/

structure Terminal where
  rows : Nat
  cols : Nat
  master_fd : Option Nat
  pid : Option Nat
  running : Bool
  deriving Repr, DecidableEq

/-- Embedding of `Terminal.__init__(rows, cols)`: no fd, no pid, not running. -/
def Terminal.init (rows cols : Nat) : Terminal :=
  { rows := rows, cols := cols, master_fd := none, pid := none, running := false }

/-- The spec's error taxonomy name for `RuntimeError("No process running
in terminal")`. -/
inductive TermError where
  | notRunning
  deriving Repr, DecidableEq

/-- Embedding of `Terminal.write(data)`: raise unless running with an open master fd,
else write the bytes to the master fd. -/
def Terminal.write (t : Terminal) (data : List Nat) :
    Except TermError (Nat × List Nat) :=
  if !t.running || t.master_fd.isNone then Except.error TermError.notRunning
  else
    match t.master_fd with
    | some fd => Except.ok (fd, data)
    | none => Except.error TermError.notRunning

/-- Embedding of `Terminal.kill()`: terminate and reap the child (best effort, errors
swallowed), mark not running, close the master fd; total — never raises. -/
def Terminal.kill (t : Terminal) : Terminal :=
  { t with running := false, master_fd := none }

/-! ## UTF-8 decoding (`bytes.decode('utf-8', errors='replace')`)

Maximal-subpart replacement: every invalid byte or truncated sequence
becomes one U+FFFD. -/

/-- A UTF-8 continuation byte. -/
def utf8Cont (b : Nat) : Bool := decide (0x80 ≤ b) && decide (b ≤ 0xBF)

/-- The replacement character U+FFFD. -/
def replChar : Char := Char.ofNat 0xFFFD

/-- Embedding of `bytes.decode('utf-8', errors='replace')`. -/
def decodeUtf8Replace : List Nat → List Char
  | [] => []
  | b :: rest =>
    if b < 0x80 then
      Char.ofNat b :: decodeUtf8Replace rest
    else if decide (0xC2 ≤ b) && decide (b ≤ 0xDF) then
      match rest with
      | b2 :: rest2 =>
        if utf8Cont b2 then
          Char.ofNat ((b - 0xC0) * 64 + (b2 - 0x80)) :: decodeUtf8Replace rest2
        else replChar :: decodeUtf8Replace (b2 :: rest2)
      | [] => [replChar]
    else if decide (0xE0 ≤ b) && decide (b ≤ 0xEF) then
      match rest with
      | b2 :: b3 :: rest3 =>
        if utf8Cont b2 && (decide (b ≠ 0xE0) || decide (0xA0 ≤ b2)) &&
            (decide (b ≠ 0xED) || decide (b2 ≤ 0x9F)) then
          if utf8Cont b3 then
            Char.ofNat ((b - 0xE0) * 4096 + (b2 - 0x80) * 64 + (b3 - 0x80)) ::
              decodeUtf8Replace rest3
          else replChar :: decodeUtf8Replace (b3 :: rest3)
        else replChar :: decodeUtf8Replace (b2 :: b3 :: rest3)
      | [b2] =>
        if utf8Cont b2 && (decide (b ≠ 0xE0) || decide (0xA0 ≤ b2)) &&
            (decide (b ≠ 0xED) || decide (b2 ≤ 0x9F)) then [replChar]
        else [replChar, replChar]
      | [] => [replChar]
    else if decide (0xF0 ≤ b) && decide (b ≤ 0xF4) then
      match rest with
      | b2 :: rest2 =>
        if utf8Cont b2 && (decide (b ≠ 0xF0) || decide (0x90 ≤ b2)) &&
            (decide (b ≠ 0xF4) || decide (b2 ≤ 0x8F)) then
          match rest2 with
          | b3 :: rest3 =>
            if utf8Cont b3 then
              match rest3 with
              | b4 :: rest4 =>
                if utf8Cont b4 then
                  Char.ofNat ((b - 0xF0) * 262144 + (b2 - 0x80) * 4096 +
                      (b3 - 0x80) * 64 + (b4 - 0x80)) :: decodeUtf8Replace rest4
                else replChar :: decodeUtf8Replace (b4 :: rest4)
              | [] => [replChar]
            else replChar :: decodeUtf8Replace (b3 :: rest3)
          | [] => [replChar]
        else replChar :: decodeUtf8Replace (b2 :: rest2)
      | [] => [replChar]
    else
      replChar :: decodeUtf8Replace rest
termination_by bs => bs.length
decreasing_by all_goals simp_all <;> omega

/-! ## `TerminalSession` and `SessionManager` (session_manager.py) -/

/-- One terminal session: id, original argv, raw output chunks, the
virtual screen and the PTY terminal. (The asyncio lock serialises
`get_output` against `add_output`; the embedding is the serialised
semantics.) -/
structure TerminalSession where
  session_id : String
  command : List String
  output_buffer : List (List Nat)
  screen_buffer : ScreenBuffer
  terminal : Terminal
  deriving Repr, DecidableEq

/-- Embedding of `TerminalSession.add_output(data)`: append the chunk to the raw
buffer, then try to decode and feed the screen buffer — any exception in
that second step is swallowed (`except Exception: pass`). -/
def TerminalSession.add_output (s : TerminalSession) (data : List Nat) :
    TerminalSession :=
  let s1 := { s with output_buffer := s.output_buffer ++ [data] }
  match s1.screen_buffer.process_output (decodeUtf8Replace data) with
  | some sb => { s1 with screen_buffer := sb }
  | none => s1

/-- Embedding of `TerminalSession.get_output(clear)`: join all chunks; on `clear`
empty the buffer. Returns the bytes and the post-state. -/
def TerminalSession.get_output (s : TerminalSession) (clear : Bool) :
    List Nat × TerminalSession :=
  let output := s.output_buffer.flatten
  if clear then (output, { s with output_buffer := [] }) else (output, s)

/-- Embedding of `SessionManager`: the id → session registry (`self.sessions`),
embedded as an association list in insertion order. -/
structure SessionManager where
  sessions : List (String × TerminalSession)
  deriving Repr, DecidableEq

/-- Embedding of `SessionManager.get_session(session_id)` (`dict.get`). -/
def SessionManager.get_session (m : SessionManager) (id : String) :
    Option TerminalSession :=
  (m.sessions.find? (fun p => p.1 == id)).map Prod.snd

/-- Embedding of `SessionManager.delete_session(session_id)`: absent ⇒ `False`;
present ⇒ kill the session's terminal, remove the entry, return `True`.
Total — never raises. -/
def SessionManager.delete_session (m : SessionManager) (id : String) :
    Bool × SessionManager :=
  match m.get_session id with
  | none => (false, m)
  | some _ => (true, ⟨m.sessions.filter (fun p => !(p.1 == id))⟩)

/-- Embedding of `SessionManager.list_sessions()`. -/
def SessionManager.list_sessions (m : SessionManager) : List String :=
  m.sessions.map Prod.fst

/-- The spec's taxonomy for `Terminal.spawn` failures: `SpawnError`
(fork/exec raised) and `StartupError` (child exited non-zero
immediately; `RuntimeError` in the code). -/
inductive SpawnError where
  | spawnFailed
  | startupFailed (exitCode : Nat)
  deriving Repr, DecidableEq

/-- Embedding of `SessionManager.create_session`: generate an id (passed in here —
`uuid.uuid4()` is environment randomness), construct the session, then
`terminal.spawn(...)` — whose OS-dependent outcome is the `spawnResult`
argument — and only on success register the session. A spawn exception
propagates before the registry is touched. -/
def SessionManager.create_session (m : SessionManager) (session_id : String)
    (command : List String) (rows cols : Nat)
    (spawnResult : Except SpawnError Terminal) :
    Except SpawnError String × SessionManager :=
  match spawnResult with
  | Except.error e => (Except.error e, m)
  | Except.ok term =>
    let session : TerminalSession :=
      { session_id := session_id, command := command, output_buffer := []
        screen_buffer := ScreenBuffer.init rows cols, terminal := term }
    (Except.ok session_id, ⟨m.sessions ++ [(session_id, session)]⟩)

/-! ## Helper lemmas for the registry and the raw buffer -/

theorem find?_filter_ne (l : List (String × TerminalSession)) (id : String) :
    (l.filter (fun p => !(p.1 == id))).find? (fun p => p.1 == id) = none := by
  induction l with
  | nil => rfl
  | cons kv l ih =>
    cases hk : (kv.1 == id) <;>
      simp [List.filter_cons, List.find?_cons, hk, ih]

theorem find?_append_right (l1 l2 : List (String × TerminalSession))
    (p : String × TerminalSession → Bool) (h : l1.find? p = none) :
    (l1 ++ l2).find? p = l2.find? p := by
  induction l1 with
  | nil => rfl
  | cons kv l ih =>
    simp only [List.find?_cons] at h ⊢
    rcases hb : p kv with _ | _
    · rw [hb] at h
      simp only [List.cons_append, List.find?_cons, hb]
      exact ih h
    · rw [hb] at h
      cases h

theorem add_output_buffer (s : TerminalSession) (data : List Nat) :
    (s.add_output data).output_buffer = s.output_buffer ++ [data] := by
  unfold TerminalSession.add_output
  simp only
  split <;> rfl

theorem foldl_add_output_buffer (chunks : List (List Nat)) :
    ∀ s : TerminalSession,
      (chunks.foldl TerminalSession.add_output s).output_buffer =
        s.output_buffer ++ chunks := by
  induction chunks with
  | nil => intro s; simp
  | cons ch chunks ih =>
    intro s
    simp only [List.foldl_cons, ih, add_output_buffer, List.append_assoc,
      List.singleton_append]

/-! ## Claims about the session manager and the terminal -/

/-- C4: `delete_session(session_id)` returns `False` and leaves the
registry unchanged when the id is absent; when the id is present it kills
the session's terminal (not running, fd closed), removes the entry — so a
subsequent get returns absent and a second delete returns `False` — and
returns `True`. It is a total function, so it never raises. -/
theorem C4_delete_session_contract (m : SessionManager) (id : String) :
    (m.get_session id = none → m.delete_session id = (false, m)) ∧
    (∀ s, m.get_session id = some s →
      (m.delete_session id).1 = true ∧
      ((m.delete_session id).2).get_session id = none ∧
      ((m.delete_session id).2).delete_session id = (false, (m.delete_session id).2) ∧
      (s.terminal.kill).running = false ∧ (s.terminal.kill).master_fd = none) := by
  constructor
  · intro h
    unfold SessionManager.delete_session
    rw [h]
  · intro s hs
    have hdel : m.delete_session id =
        (true, SessionManager.mk (m.sessions.filter (fun p => !(p.1 == id)))) := by
      unfold SessionManager.delete_session
      rw [hs]
    have hget : (SessionManager.mk
        (m.sessions.filter (fun p => !(p.1 == id)))).get_session id = none := by
      unfold SessionManager.get_session
      rw [find?_filter_ne]
      rfl
    refine ⟨by rw [hdel], by rw [hdel]; exact hget, ?_, rfl, rfl⟩
    rw [hdel]
    unfold SessionManager.delete_session
    rw [hget]

/-- Registry with one live session, used to witness C4. -/
def c4Session : TerminalSession :=
  { session_id := "s1", command := [], output_buffer := []
    screen_buffer := ScreenBuffer.init 1 1, terminal := Terminal.init 1 1 }

def c4Manager : SessionManager := ⟨[("s1", c4Session)]⟩

theorem C4_delete_session_witness :
    c4Manager.get_session ("s1") = some c4Session ∧
      (c4Manager.delete_session ("s1")).1 = true ∧
      ((c4Manager.delete_session ("s1")).2).get_session ("s1") = none ∧
      ((c4Manager.delete_session ("s1")).2).delete_session ("s1") =
        (false, (c4Manager.delete_session ("s1")).2) ∧
      c4Manager.delete_session ("zzz") = (false, c4Manager) := by
  have hs : c4Manager.get_session ("s1") = some c4Session := by
    simp [c4Manager, SessionManager.get_session, List.find?_cons]
  have hz : c4Manager.get_session ("zzz") = none := by
    simp [c4Manager, SessionManager.get_session, List.find?_cons]
  have h1 := (C4_delete_session_contract c4Manager ("s1")).2 c4Session hs
  have h2 := (C4_delete_session_contract c4Manager ("zzz")).1 hz
  exact ⟨hs, h1.1, h1.2.1, h1.2.2.1, h2⟩

/-- C5: after a clearing drain, the raw buffer accumulates exactly the
chunks appended since then: a peek (`clear=False`) returns their
concatenation and leaves the session unchanged (so consecutive peeks
agree), while a clearing drain (`clear=True`) returns the same
concatenation and empties the buffer, so the next drain returns empty
bytes — at-most-once delivery. -/
theorem C5_get_output_semantics (s0 : TerminalSession)
    (chunks : List (List Nat)) (b : Bool) :
    ((chunks.foldl TerminalSession.add_output
        ((s0.get_output true).2)).get_output false).1 = chunks.flatten ∧
    ((chunks.foldl TerminalSession.add_output
        ((s0.get_output true).2)).get_output false).2 =
      chunks.foldl TerminalSession.add_output ((s0.get_output true).2) ∧
    ((chunks.foldl TerminalSession.add_output
        ((s0.get_output true).2)).get_output true).1 = chunks.flatten ∧
    ((((chunks.foldl TerminalSession.add_output
        ((s0.get_output true).2)).get_output true).2).get_output b).1 = [] := by
  have hclear : ((s0.get_output true).2).output_buffer = [] := by
    unfold TerminalSession.get_output
    rfl
  have hbuf : (chunks.foldl TerminalSession.add_output
      ((s0.get_output true).2)).output_buffer = chunks := by
    rw [foldl_add_output_buffer, hclear]
    rfl
  have hpeek : ∀ s : TerminalSession, s.get_output false = (s.output_buffer.flatten, s) :=
    fun s => rfl
  have hcl1 : ∀ s : TerminalSession, (s.get_output true).1 = s.output_buffer.flatten :=
    fun s => rfl
  have hcl2 : ∀ s : TerminalSession, ((s.get_output true).2).output_buffer = [] :=
    fun s => rfl
  refine ⟨?_, ?_, ?_, ?_⟩
  · rw [hpeek, hbuf]
  · rw [hpeek]
  · rw [hcl1, hbuf]
  · cases b
    · rw [hpeek, hcl2]
      rfl
    · rw [hcl1, hcl2]
      rfl

/-- C8: `Terminal.write(bytes)` raises the not-running error (the code's
`RuntimeError("No process running in terminal")`, the spec's
`NotRunningError`) on a session that is dead or was never started, and
writes the bytes to the master fd on a running session. -/
theorem C8_write_requires_running (t : Terminal) (data : List Nat) (fd : Nat)
    (rows cols : Nat) :
    (t.running = false → t.write data = Except.error TermError.notRunning) ∧
    ((Terminal.init rows cols).write data = Except.error TermError.notRunning) ∧
    (t.running = true → t.master_fd = some fd → t.write data = Except.ok (fd, data)) := by
  refine ⟨?_, ?_, ?_⟩
  · intro h
    unfold Terminal.write
    rw [h]
    rfl
  · rfl
  · intro h1 h2
    unfold Terminal.write
    rw [h1, h2]
    rfl

theorem C8_write_requires_running_witness :
    (Terminal.mk 2 3 (some 7) (some 42) false).write [1, 2] =
        Except.error TermError.notRunning ∧
      (Terminal.init 2 3).write [1, 2] = Except.error TermError.notRunning ∧
      (Terminal.mk 2 3 (some 7) (some 42) true).write [1, 2] = Except.ok (7, [1, 2]) := by
  have h := C8_write_requires_running (Terminal.mk 2 3 (some 7) (some 42) false) [1, 2] 7 2 3
  have h2 := C8_write_requires_running (Terminal.mk 2 3 (some 7) (some 42) true) [1, 2] 7 2 3
  exact ⟨h.1 rfl, h.2.1, h2.2.2 rfl rfl⟩

/-- C10: `create_session` registers nothing when spawn fails — the
exception propagates, the registry map and `list_sessions` are unchanged
and the fresh id stays unregistered; only on successful spawn does it
return the id, under which `get_session` yields the new session. -/
theorem C10_create_session_atomicity (m : SessionManager) (id : String)
    (cmd : List String) (rows cols : Nat) (e : SpawnError) (term : Terminal)
    (hfresh : m.get_session id = none) :
    m.create_session id cmd rows cols (Except.error e) = (Except.error e, m) ∧
    ((m.create_session id cmd rows cols (Except.error e)).2).get_session id = none ∧
    ((m.create_session id cmd rows cols (Except.error e)).2).list_sessions =
      m.list_sessions ∧
    (m.create_session id cmd rows cols (Except.ok term)).1 = Except.ok id ∧
    ((m.create_session id cmd rows cols (Except.ok term)).2).get_session id =
      some { session_id := id, command := cmd, output_buffer := []
             screen_buffer := ScreenBuffer.init rows cols, terminal := term } := by
  have hfind : m.sessions.find? (fun p => p.1 == id) = none := by
    unfold SessionManager.get_session at hfresh
    exact Option.map_eq_none'.mp hfresh
  refine ⟨rfl, hfresh, rfl, rfl, ?_⟩
  unfold SessionManager.create_session SessionManager.get_session
  simp only
  rw [find?_append_right _ _ _ hfind]
  simp [List.find?_cons]

def c10Manager : SessionManager := ⟨[]⟩

theorem C10_create_session_atomicity_witness :
    c10Manager.create_session ("w") ["cat"] 2 3 (Except.error SpawnError.spawnFailed) =
        (Except.error SpawnError.spawnFailed, c10Manager) ∧
      ((c10Manager.create_session ("w") ["cat"] 2 3
          (Except.error SpawnError.spawnFailed)).2).get_session ("w") = none ∧
      ((c10Manager.create_session ("w") ["cat"] 2 3
          (Except.ok (Terminal.mk 2 3 (some 7) (some 42) true))).2).get_session ("w") =
        some { session_id := "w", command := ["cat"], output_buffer := []
               screen_buffer := ScreenBuffer.init 2 3
               terminal := Terminal.mk 2 3 (some 7) (some 42) true } := by
  have hfresh : c10Manager.get_session ("w") = none := rfl
  have h := C10_create_session_atomicity c10Manager ("w") ["cat"] 2 3
    SpawnError.spawnFailed (Terminal.mk 2 3 (some 7) (some 42) true) hfresh
  exact ⟨h.1, h.2.1, h.2.2.2.2⟩

/-! ## Claims about the screen buffer -/

/-- C3: from a fresh `ScreenBuffer(rows, cols)` with positive dimensions,
whenever `process_output` returns, the cursor satisfies
`0 ≤ cursor_row < rows` and `0 ≤ cursor_col < cols` — for arbitrary
input, hence including tab jumps, relative moves with arbitrarily large
counts, absolute moves and cursor restore. -/
theorem C3_cursor_invariant (rows cols : Nat) (hr : 0 < rows) (hc : 0 < cols)
    (input : List Char) (sb' : ScreenBuffer)
    (h : (ScreenBuffer.init rows cols).process_output input = some sb') :
    sb'.cursor_row < rows ∧ sb'.cursor_col < cols := by
  have hspec := process_output_spec h
  have hinv := hspec.2.2.1 (init_inv rows cols hr hc)
  have h1 : sb'.rows = rows := by rw [hspec.1]; rfl
  have h2 : sb'.cols = cols := by rw [hspec.2.1]; rfl
  have hx := hinv.1
  have hy := hinv.2.1
  exact ⟨by omega, by omega⟩

theorem C3_cursor_invariant_witness :
    ∃ sb', (ScreenBuffer.init 2 3).process_output ("a\t\x1b[99B\x1b[s\x1b[u".data) = some sb' ∧
      sb'.cursor_row < 2 ∧ sb'.cursor_col < 3 := by
  obtain ⟨sb', hsb⟩ : ∃ sb',
      (ScreenBuffer.init 2 3).process_output ("a\t\x1b[99B\x1b[s\x1b[u".data) = some sb' := by
    simp [process_output_nil, process_output_csi_step, process_output_esc_paren,
      process_output_esc_keypad, process_output_esc_dec_step, process_output_esc_unknown,
      process_output_reg, ScreenBuffer.process_ansi_escape, ScreenBuffer.processCsi,
      csiParam, csiCount, splitSemi, pyInt, isCsiParamChar, isDecFinal,
      ScreenBuffer.write_char, ScreenBuffer.writeCharCore, ScreenBuffer.wrapOverflow,
      ScreenBuffer.clampRow, ScreenBuffer.move_cursor, ScreenBuffer.move_cursor_relative,
      ScreenBuffer.clear, ScreenBuffer.clear_line, ScreenBuffer.clearToEnd, modifyAt,
      setSpaces, blankRow, ScreenBuffer.init]
  have h := C3_cursor_invariant 2 3 (by decide) (by decide) _ sb' hsb
  exact ⟨sb', hsb, h.1, h.2⟩

/-- C7: `ESC[2J` clears every cell to a space and homes the cursor, and
issuing it twice gives exactly the state of issuing it once, from any
starting state. -/
theorem C7_clear_screen_idempotent (sb : ScreenBuffer) :
    sb.process_output ("\x1b[2J".data) = some sb.clear ∧
    (∀ r c, r < sb.rows → c < sb.cols → (sb.clear).cellAt r c = ' ') ∧
    (sb.clear).cursor_row = 0 ∧ (sb.clear).cursor_col = 0 ∧
    sb.process_output ("\x1b[2J\x1b[2J".data) = sb.process_output ("\x1b[2J".data) := by
  have heval : ∀ t : ScreenBuffer, t.process_output ("\x1b[2J".data) = some t.clear := by
    intro t
    simp [process_output_nil, process_output_csi_step, ScreenBuffer.process_ansi_escape,
      ScreenBuffer.processCsi, csiParam, csiCount, splitSemi, pyInt, isCsiParamChar]
  have hcells : ∀ r c, r < sb.rows → c < sb.cols → (sb.clear).cellAt r c = ' ' := by
    intro r c hrr hcc
    unfold ScreenBuffer.cellAt ScreenBuffer.clear
    simp only
    rw [getD_replicate, if_pos hrr]
    exact getD_blankRow _ _
  have hdouble : sb.process_output ("\x1b[2J\x1b[2J".data) = some sb.clear.clear := by
    simp [process_output_nil, process_output_csi_step, ScreenBuffer.process_ansi_escape,
      ScreenBuffer.processCsi, csiParam, csiCount, splitSemi, pyInt, isCsiParamChar]
  have hidem : sb.clear.clear = sb.clear := rfl
  refine ⟨heval sb, hcells, rfl, rfl, ?_⟩
  rw [heval sb, hdouble, hidem]

theorem C7_clear_screen_idempotent_witness :
    (ScreenBuffer.init 2 2).process_output ("\x1b[2J".data) =
        some (ScreenBuffer.init 2 2).clear ∧
      ((ScreenBuffer.init 2 2).clear).cellAt 1 1 = ' ' ∧
      (ScreenBuffer.init 2 2).process_output ("\x1b[2J\x1b[2J".data) =
        (ScreenBuffer.init 2 2).process_output ("\x1b[2J".data) := by
  have h := C7_clear_screen_idempotent (ScreenBuffer.init 2 2)
  exact ⟨h.1, h.2.1 1 1 (by decide) (by decide), h.2.2.2.2⟩

/-- C1, refuted (code bug): `process_output` is NOT total and escape
bytes DO reach the grid. `"\x1b[?1H"` raises `ValueError`
(`int("?1")` in the `H` handler — the scanner admits `?` among parameter
bytes), a lone trailing ESC is written into the grid as a regular
character, and a truncated CSI `"\x1b[31"` leaks its parameter bytes
`'3' '1'` into the grid. -/
theorem C1_escape_consumption_violated :
    (ScreenBuffer.init 5 20).process_output ("\x1b[?1H".data) = none ∧
    ((ScreenBuffer.init 1 4).process_output ("\x1b".data)).map (fun sb => sb.cellAt 0 0) =
      some '\x1b' ∧
    ((ScreenBuffer.init 5 20).process_output ("\x1b[31".data)).map
      (fun sb => (sb.cellAt 0 0, sb.cellAt 0 1)) = some ('3', '1') := by
  refine ⟨?_, ?_, ?_⟩ <;>
    simp [process_output_nil, process_output_csi_step, process_output_esc_paren,
      process_output_esc_keypad, process_output_esc_dec_step, process_output_esc_unknown,
      process_output_reg, ScreenBuffer.process_ansi_escape, ScreenBuffer.processCsi,
      csiParam, csiCount, splitSemi, pyInt, isCsiParamChar, isDecFinal,
      ScreenBuffer.write_char, ScreenBuffer.writeCharCore, ScreenBuffer.wrapOverflow,
      ScreenBuffer.clampRow, ScreenBuffer.cellAt, modifyAt, getD_set,
      ScreenBuffer.init, blankRow]

/-- C2: feeding only printable characters to a fresh
`ScreenBuffer(rows, cols)` reproduces the sequence left-to-right,
top-to-bottom: the k-th character lands at row `k / cols`, column
`k % cols` — i.e. the cell at `(r, c)` holds character `r*cols + c` —
(cursor advance, wrap at `cols`, clamp at `rows-1`), and every cell past
the sequence stays blank. Stated for sequences that fit the grid, where
the row clamp never discards characters. -/
theorem C2_printable_reproduction (rows cols : Nat) (hr : 0 < rows) (hc : 0 < cols)
    (input : List Char) (hp : ∀ ch ∈ input, Printable ch)
    (hlen : input.length ≤ rows * cols) :
    ∃ sb', (ScreenBuffer.init rows cols).process_output input = some sb' ∧
      (∀ r c, r < rows → c < cols → r * cols + c < input.length →
        sb'.cellAt r c = input.getD (r * cols + c) ' ') ∧
      (∀ r c, r < rows → c < cols → input.length ≤ r * cols + c →
        sb'.cellAt r c = ' ') := by
  obtain ⟨sb', hrun, hcells⟩ := printable_run rows cols input (ScreenBuffer.init rows cols)
    0 0 hp rfl rfl rfl rfl hr hc (init_shape rows cols) (by omega)
  refine ⟨sb', hrun, ?_, ?_⟩
  · intro r c hrr hcc hP
    have hcnd : 0 * cols + 0 ≤ r * cols + c ∧
        r * cols + c < 0 * cols + 0 + input.length := by omega
    rw [hcells r c hcc, if_pos hcnd,
      show r * cols + c - (0 * cols + 0) = r * cols + c from by omega]
  · intro r c hrr hcc hP
    rw [hcells r c hcc, if_neg (by rintro ⟨_, h2⟩; omega)]
    exact init_cellAt rows cols r c

theorem C2_printable_reproduction_witness :
    ∃ sb', (ScreenBuffer.init 2 3).process_output ("abcd".data) = some sb' ∧
      (∀ r c, r < 2 → c < 3 → r * 3 + c < "abcd".data.length →
        sb'.cellAt r c = "abcd".data.getD (r * 3 + c) ' ') ∧
      (∀ r c, r < 2 → c < 3 → "abcd".data.length ≤ r * 3 + c →
        sb'.cellAt r c = ' ') :=
  C2_printable_reproduction 2 3 (by decide) (by decide) "abcd".data
    (by decide) (by decide)

/-- Every CSI body ending in `m` (SGR) is recognized and discarded with no
effect on the buffer — the `m` check fires after all the others, whose
final bytes differ from `m`. -/
theorem sgr_discarded (sb : ScreenBuffer) (params : List Char) :
    sb.process_ansi_escape ('[' :: (params ++ ['m'])) = some (sb, true) := by
  have hlast : (params ++ ['m']).getLast? = some 'm' := List.getLast?_concat params
  have hne : ∀ x : List Char, x.getLast? ≠ some 'm' → ¬(params ++ ['m'] = x) := by
    intro x hx h
    rw [h] at hlast
    exact hx hlast
  have hred : sb.process_ansi_escape ('[' :: (params ++ ['m'])) =
      sb.processCsi (params ++ ['m']) := by
    simp [ScreenBuffer.process_ansi_escape]
  rw [hred]
  unfold ScreenBuffer.processCsi
  rw [if_neg (by rw [hlast]; simp)]
  rw [if_neg (by rw [hlast]; simp)]
  rw [if_neg (by rw [hlast]; simp)]
  rw [if_neg (by rw [hlast]; simp)]
  rw [if_neg (by rw [hlast]; simp)]
  rw [if_neg (hne ['2', 'J'] (by simp))]
  have hJ : ¬(params ++ ['m'] = ['J'] ∨ params ++ ['m'] = ['0', 'J']) := by
    rintro (h | h)
    · exact hne ['J'] (by simp) h
    · exact hne ['0', 'J'] (by simp) h
  have hK : ¬(params ++ ['m'] = ['K'] ∨ params ++ ['m'] = ['0', 'K']) := by
    rintro (h | h)
    · exact hne ['K'] (by simp) h
    · exact hne ['0', 'K'] (by simp) h
  rw [if_neg hJ]
  rw [if_neg hK]
  rw [if_neg (hne ['1', 'K'] (by simp))]
  rw [if_neg (hne ['2', 'K'] (by simp))]
  rw [if_neg (hne ['s'] (by simp))]
  rw [if_neg (hne ['u'] (by simp))]
  rw [if_pos hlast]

/-- C9: feeding `"\x1b[31mRed Text\x1b[0m Normal"` to a fresh
`ScreenBuffer(5, 20)` yields `lines[0] == "Red Text Normal"` — and in
general every CSI sequence ending in `m` (SGR) is recognized and
discarded with no effect on the grid or the cursor, leaking no escape
bytes. -/
theorem C9_sgr_stripped :
    (∃ sb', (ScreenBuffer.init 5 20).process_output
        "\x1b[31mRed Text\x1b[0m Normal".data = some sb' ∧
        sb'.get_screen_lines.getD 0 "" = "Red Text Normal") ∧
    (∀ (sb : ScreenBuffer) (params : List Char),
      sb.process_ansi_escape ('[' :: (params ++ ['m'])) = some (sb, true)) := by
  constructor
  · obtain ⟨sb', hsb⟩ : ∃ sb', (ScreenBuffer.init 5 20).process_output
        "\x1b[31mRed Text\x1b[0m Normal".data = some sb' := by
      simp [process_output_nil, process_output_csi_step, process_output_esc_paren,
        process_output_esc_keypad, process_output_esc_dec_step, process_output_esc_unknown,
        process_output_reg, ScreenBuffer.process_ansi_escape, ScreenBuffer.processCsi,
        csiParam, csiCount, splitSemi, pyInt, isCsiParamChar, isDecFinal,
        ScreenBuffer.write_char, ScreenBuffer.writeCharCore, ScreenBuffer.wrapOverflow,
        ScreenBuffer.clampRow, modifyAt, ScreenBuffer.init, blankRow]
    refine ⟨sb', hsb, ?_⟩
    simp [process_output_nil, process_output_csi_step, process_output_esc_paren,
      process_output_esc_keypad, process_output_esc_dec_step, process_output_esc_unknown,
      process_output_reg, ScreenBuffer.process_ansi_escape, ScreenBuffer.processCsi,
      csiParam, csiCount, splitSemi, pyInt, isCsiParamChar, isDecFinal,
      ScreenBuffer.write_char, ScreenBuffer.writeCharCore, ScreenBuffer.wrapOverflow,
      ScreenBuffer.clampRow, modifyAt, ScreenBuffer.init, blankRow] at hsb
    subst hsb
    simp [ScreenBuffer.get_screen_lines, pyRstrip, pyIsSpace]
  · exact sgr_discarded

/-- An in-bounds intervening operation between `ESC[s` and `ESC[u`:
a printable write or a cursor move (absolute or relative). -/
inductive MidOp where
  | write (c : Char)
  | moveAbs (row col : Int)
  | moveRel (dr dc : Int)
  deriving Repr, DecidableEq

def applyOp (sb : ScreenBuffer) : MidOp → ScreenBuffer
  | MidOp.write c => sb.write_char c
  | MidOp.moveAbs row col => sb.move_cursor row col
  | MidOp.moveRel dr dc => sb.move_cursor_relative dr dc

theorem applyOp_spec (sb : ScreenBuffer) (op : MidOp) :
    (applyOp sb op).rows = sb.rows ∧ (applyOp sb op).cols = sb.cols ∧
      (applyOp sb op).saved_cursor = sb.saved_cursor ∧
      (GridShape sb → GridShape (applyOp sb op)) := by
  cases op with
  | write c =>
    have hd := write_char_dims sb c
    exact ⟨hd.1, hd.2.1, hd.2.2, fun hg => write_char_shape c hg⟩
  | moveAbs row col =>
    simp only [applyOp]
    have hd := move_cursor_dims sb row col
    refine ⟨hd.1, hd.2.1, hd.2.2.1, fun hg => ?_⟩
    unfold GridShape
    rw [hd.1, hd.2.1, hd.2.2.2]
    exact hg
  | moveRel dr dc =>
    simp only [applyOp, ScreenBuffer.move_cursor_relative]
    have hd := move_cursor_dims sb ((sb.cursor_row : Int) + dr) ((sb.cursor_col : Int) + dc)
    refine ⟨hd.1, hd.2.1, hd.2.2.1, fun hg => ?_⟩
    unfold GridShape
    rw [hd.1, hd.2.1, hd.2.2.2]
    exact hg

theorem foldl_applyOp_spec (ops : List MidOp) :
    ∀ sb : ScreenBuffer,
      (ops.foldl applyOp sb).rows = sb.rows ∧ (ops.foldl applyOp sb).cols = sb.cols ∧
      (ops.foldl applyOp sb).saved_cursor = sb.saved_cursor ∧
      (GridShape sb → GridShape (ops.foldl applyOp sb)) := by
  induction ops with
  | nil => exact fun sb => ⟨rfl, rfl, rfl, id⟩
  | cons op ops ih =>
    intro sb
    have h1 := applyOp_spec sb op
    have h2 := ih (applyOp sb op)
    simp only [List.foldl_cons]
    exact ⟨h2.1.trans h1.1, h2.2.1.trans h1.2.1, h2.2.2.1.trans h1.2.2.1,
      fun hg => h2.2.2.2 (h1.2.2.2 hg)⟩

/-- C6: save/restore round-trip. After `ESC[s`, any sequence of printable
writes and cursor moves, then `ESC[u`, the cursor is back at the saved
position, and a printable marker written next lands at the saved
row/col. -/
theorem C6_save_restore_roundtrip (sb : ScreenBuffer) (ops : List MidOp) (marker : Char)
    (hm : Printable marker) (hg : GridShape sb)
    (hr : sb.cursor_row < sb.rows) (hcc : sb.cursor_col < sb.cols) :
    ∃ sb1 sb3,
      sb.process_output ("\x1b[s".data) = some sb1 ∧
      (ops.foldl applyOp sb1).process_output ("\x1b[u".data) = some sb3 ∧
      sb3.cursor_row = sb.cursor_row ∧ sb3.cursor_col = sb.cursor_col ∧
      (sb3.write_char marker).cellAt sb.cursor_row sb.cursor_col = marker := by
  have h1 : sb.process_output ("\x1b[s".data) =
      some { sb with saved_cursor := some (sb.cursor_row, sb.cursor_col) } := by
    simp [process_output_nil, process_output_csi_step, ScreenBuffer.process_ansi_escape,
      ScreenBuffer.processCsi, csiParam, csiCount, splitSemi, pyInt, isCsiParamChar]
  have hfold := foldl_applyOp_spec ops
    { sb with saved_cursor := some (sb.cursor_row, sb.cursor_col) }
  have hsv : (ops.foldl applyOp
      { sb with saved_cursor := some (sb.cursor_row, sb.cursor_col) }).saved_cursor =
      some (sb.cursor_row, sb.cursor_col) := hfold.2.2.1
  have h2 : (ops.foldl applyOp
      { sb with saved_cursor := some (sb.cursor_row, sb.cursor_col) }).process_output
        "\x1b[u".data =
      some { ops.foldl applyOp
          { sb with saved_cursor := some (sb.cursor_row, sb.cursor_col) } with
        cursor_row := sb.cursor_row, cursor_col := sb.cursor_col } := by
    simp [process_output_nil, process_output_csi_step, ScreenBuffer.process_ansi_escape,
      ScreenBuffer.processCsi, csiParam, csiCount, splitSemi, pyInt, isCsiParamChar, hsv]
  refine ⟨_, _, h1, h2, rfl, rfl, ?_⟩
  set sb2 := ops.foldl applyOp
    { sb with saved_cursor := some (sb.cursor_row, sb.cursor_col) } with hsb2
  have hg1 : GridShape { sb with saved_cursor := some (sb.cursor_row, sb.cursor_col) } := hg
  have hg2 : GridShape sb2 := hfold.2.2.2 hg1
  have hg3 : GridShape { sb2 with cursor_row := sb.cursor_row, cursor_col := sb.cursor_col } := hg2
  have hrows : sb2.rows = sb.rows := hfold.1
  have hcols : sb2.cols = sb.cols := hfold.2.1
  have hwc := @cellAt_write { sb2 with cursor_row := sb.cursor_row, cursor_col := sb.cursor_col } marker hg3 (by simp only; omega) (by simp only; omega) hm sb.cursor_row sb.cursor_col
  rw [hwc, if_pos ⟨rfl, rfl⟩]

/-- A 3×5 buffer with the cursor at `(0, 2)`, used to witness C6. -/
def c6Buffer : ScreenBuffer :=
  { rows := 3, cols := 5, cursor_row := 0, cursor_col := 2
    screen := List.replicate 3 (blankRow 5), saved_cursor := none }

theorem C6_save_restore_roundtrip_witness :
    ∃ sb1 sb3,
      c6Buffer.process_output ("\x1b[s".data) = some sb1 ∧
      ([MidOp.write 'w', MidOp.moveAbs 2 4, MidOp.moveRel (-1) (-1)].foldl
          applyOp sb1).process_output ("\x1b[u".data) = some sb3 ∧
      sb3.cursor_row = c6Buffer.cursor_row ∧ sb3.cursor_col = c6Buffer.cursor_col ∧
      (sb3.write_char 'X').cellAt c6Buffer.cursor_row c6Buffer.cursor_col = 'X' :=
  C6_save_restore_roundtrip c6Buffer [MidOp.write 'w', MidOp.moveAbs 2 4,
    MidOp.moveRel (-1) (-1)] 'X' (by decide) (ScreenShape.replicate_blank 3 5)
    (by decide) (by decide)

end TermWrapper
